import Mathlib

/-!
# Open Pixel Control packet receiver (`OpenPixelServerBase`)

A shallow embedding of `Adafruit_Arduino_OpenPixelServer.h`.

* Machine integers are natural numbers; `uint16_t` and `uint32_t` arithmetic that can wrap
  is reduced explicitly (`% 65536`, `% 4294967296`).
* The heap buffer `_data` is an `Option (List Nat)`: `none` is the `NULL` pointer returned by a
  failed `malloc`, `some buf` is a block of `buf.length` bytes.  Every buffer access is
  checked; an access through `NULL` or outside the block makes the operation return `none`.
* `millis()` is an argument `now` of every operation that reads the clock; one reading is used
  for the processing of one byte.
* The client connection is the list of bytes it has available, each paired with the clock
  reading at the moment it is read.
-/

namespace OpenPixel

/-- Return codes of `begin()`. -/
inductive BeginResult where
  | SUCCESS
  | ERROR_NO_MEMORY
  deriving DecidableEq, Repr

/-- Return codes of `listen()`. -/
inductive ListenResult where
  | WORKING
  | RECEIVED_PACKET
  | IGNORED_PACKET
  deriving DecidableEq, Repr

/-- The member variables of `OpenPixelServerBase<TServer, TClient>`. -/
structure OpenPixelServerBase (TServer : Type) where
  _server : TServer
  _maxDataLen : Nat
  _timeoutMS : Nat
  _data : Option (List Nat)
  _receivedLen : Nat
  _expectedLen : Nat
  _readTimeout : Nat
  deriving DecidableEq, Repr

namespace OpenPixelServerBase

variable {TServer : Type}

/-- The read `_data[i]`: fails on a null buffer or an index outside the block. -/
def readData (s : OpenPixelServerBase TServer) (i : Nat) : Option Nat :=
  match s._data with
  | none => none
  | some buf => buf[i]?

/-- The write `_data[i] = d`: fails on a null buffer or an index outside the block. -/
def writeData (s : OpenPixelServerBase TServer) (i d : Nat) : Option (OpenPixelServerBase TServer) :=
  match s._data with
  | none => none
  | some buf => if i < buf.length then some { s with _data := some (buf.set i d) } else none

/-- The private `_expectNewPacket()`, with `millis()` reading `now`. -/
def _expectNewPacket (s : OpenPixelServerBase TServer) (now : Nat) : OpenPixelServerBase TServer :=
  { s with _expectedLen := 4, _receivedLen := 0, _readTimeout := (now + s._timeoutMS) % 4294967296 }

/-- The constructor.  `malloc n` is the outcome of the allocation request for `n` bytes. -/
def new (server : TServer) (maxDataLength timeoutMS : Nat) (malloc : Nat → Option (List Nat))
    (now : Nat) : OpenPixelServerBase TServer :=
  let s : OpenPixelServerBase TServer :=
    { _server := server, _maxDataLen := maxDataLength, _timeoutMS := timeoutMS, _data := none,
      _receivedLen := 0, _expectedLen := 0, _readTimeout := 0 }
  let s := { s with _data := malloc (s._maxDataLen + 4) }
  _expectNewPacket s now

/-- The copy constructor: it delegates to the constructor with the configuration of `copy`.
The source object is taken by reference to const; it is returned next to the new object. -/
def newCopy (copy : OpenPixelServerBase TServer) (malloc : Nat → Option (List Nat)) (now : Nat) :
    OpenPixelServerBase TServer × OpenPixelServerBase TServer :=
  (copy, new copy._server copy._maxDataLen copy._timeoutMS malloc now)

/-- The method `begin()`; `serverBegin` is `TServer::begin`. -/
def begin (serverBegin : TServer → TServer) (s : OpenPixelServerBase TServer) :
    OpenPixelServerBase TServer × BeginResult :=
  match s._data with
  | none => (s, BeginResult.ERROR_NO_MEMORY)
  | some _ => ({ s with _server := serverBegin s._server }, BeginResult.SUCCESS)

/-- The method `getChannel()`. -/
def getChannel (s : OpenPixelServerBase TServer) : Option Nat :=
  s.readData 0

/-- The method `getCommand()`. -/
def getCommand (s : OpenPixelServerBase TServer) : Option Nat :=
  s.readData 1

/-- The expression `(hi << 8) | lo` converted to `uint16_t`. -/
def dataLen (hi lo : Nat) : Nat :=
  ((hi <<< 8) ||| lo) % 65536

/-- The method `getDataLength()`. -/
def getDataLength (s : OpenPixelServerBase TServer) : Option Nat :=
  match s.readData 2, s.readData 3 with
  | some hi, some lo => some (dataLen hi lo)
  | _, _ => none

/-- The method `getData()`: the block from offset 4 on. -/
def getData (s : OpenPixelServerBase TServer) : Option (List Nat) :=
  match s._data with
  | none => none
  | some buf => some (buf.drop 4)

/-- The `getDataLength()` bytes found at `getData()`; fails if they do not lie in the block. -/
def payload (s : OpenPixelServerBase TServer) : Option (List Nat) :=
  match s.getDataLength, s.getData with
  | some n, some tl => if n ≤ tl.length then some (tl.take n) else none
  | _, _ => none

/-- The timeout check that opens `listen()`. -/
def checkTimeout (s : OpenPixelServerBase TServer) (now : Nat) : OpenPixelServerBase TServer :=
  if now ≥ s._readTimeout then s._expectNewPacket now else s

/-- Loop body, first part: bump the timeout, store the byte if there is space, decrease the
expected byte count (a `uint16_t`: decreasing 0 gives 65535). -/
def receiveByte (s : OpenPixelServerBase TServer) (d now : Nat) :
    Option (OpenPixelServerBase TServer) :=
  let s := { s with _readTimeout := (now + s._timeoutMS) % 4294967296 }
  let stored : Option (OpenPixelServerBase TServer) :=
    if s._receivedLen < s._maxDataLen then
      match s.writeData s._receivedLen d with
      | none => none
      | some s1 => some { s1 with _receivedLen := (s1._receivedLen + 1) % 65536 }
    else some s
  match stored with
  | none => none
  | some s2 =>
    some { s2 with _expectedLen := if s2._expectedLen = 0 then 65535 else s2._expectedLen - 1 }

/-- Loop body, second part: validate the header when exactly 4 bytes have been received. -/
def checkHeader (s : OpenPixelServerBase TServer) (now : Nat) :
    Option (OpenPixelServerBase TServer) :=
  if s._receivedLen = 4 then
    match s.getCommand with
    | none => none
    | some command =>
      if command ≠ 0 ∧ command ≠ 255 then some (s._expectNewPacket now)
      else
        match s.getDataLength with
        | none => none
        | some n => some { s with _expectedLen := n }
  else some s

/-- Loop body, last part: report a packet when the expected length is zero. -/
def finishPacket (s : OpenPixelServerBase TServer) (now : Nat) :
    Option (OpenPixelServerBase TServer × ListenResult) :=
  if s._expectedLen = 0 then
    let s := s._expectNewPacket now
    match s.getDataLength with
    | none => none
    | some n =>
      if n > s._maxDataLen then some (s, ListenResult.IGNORED_PACKET)
      else some (s, ListenResult.RECEIVED_PACKET)
  else some (s, ListenResult.WORKING)

/-- The state in which the loop body of `listen()` reaches the test `_expectedLen == 0`. -/
def afterHeader (s : OpenPixelServerBase TServer) (d now : Nat) :
    Option (OpenPixelServerBase TServer) :=
  match s.receiveByte d now with
  | none => none
  | some s1 => s1.checkHeader now

/-- One iteration of the `while` loop of `listen()` on the byte `d` read at time `now`.  The
result `WORKING` stands for the loop going on. -/
def stepByte (s : OpenPixelServerBase TServer) (d now : Nat) :
    Option (OpenPixelServerBase TServer × ListenResult) :=
  match s.afterHeader d now with
  | none => none
  | some s2 => s2.finishPacket now

/-- The `while` loop of `listen()` over the bytes the client has available.  It yields the
final state, the value returned and the bytes left unread. -/
def drain (s : OpenPixelServerBase TServer) :
    List (Nat × Nat) → Option (OpenPixelServerBase TServer × ListenResult × List (Nat × Nat))
  | [] => some (s, ListenResult.WORKING, [])
  | (d, now) :: rest =>
    match s.stepByte d now with
    | none => none
    | some (s1, ListenResult.WORKING) => drain s1 rest
    | some (s1, r) => some (s1, r, rest)

/-- The method `listen()` at time `now`.  `client` is `none` when `_server.available()` gives
no client, else the bytes the client has available. -/
def listen (s : OpenPixelServerBase TServer) (now : Nat) (client : Option (List (Nat × Nat))) :
    Option (OpenPixelServerBase TServer × ListenResult × List (Nat × Nat)) :=
  let s := s.checkTimeout now
  match client with
  | none => some (s, ListenResult.WORKING, [])
  | some bytes => s.drain bytes

/-- Feeding bytes one at a time through the loop body, whatever each step returns: the final
state and the value of every step. -/
def feed (s : OpenPixelServerBase TServer) :
    List (Nat × Nat) → Option (OpenPixelServerBase TServer × List ListenResult)
  | [] => some (s, [])
  | (d, now) :: rest =>
    match s.stepByte d now with
    | none => none
    | some (s1, r) =>
      match feed s1 rest with
      | none => none
      | some (s2, rs) => some (s2, r :: rs)

/-- Bytes stamped with one clock reading. -/
def stamp (now : Nat) (bytes : List Nat) : List (Nat × Nat) :=
  bytes.map (fun d => (d, now))

/-- A `malloc` that succeeds and hands out zeroed memory. -/
def mallocZero (n : Nat) : Option (List Nat) :=
  some (List.replicate n 0)

/-- The buffer was allocated with the capacity the constructor asks for. -/
def Allocated (s : OpenPixelServerBase TServer) : Prop :=
  s._data.map List.length = some (s._maxDataLen + 4)

instance (s : OpenPixelServerBase TServer) : Decidable s.Allocated :=
  inferInstanceAs (Decidable (_ = _))

/-- The receiver awaits a header. -/
def AwaitingHeader (s : OpenPixelServerBase TServer) : Prop :=
  s._receivedLen = 0 ∧ s._expectedLen = 4

instance (s : OpenPixelServerBase TServer) : Decidable s.AwaitingHeader :=
  inferInstanceAs (Decidable (_ ∧ _))

/-- A receiver with `maxDataLength = 8` and `timeoutMS = 1000`, seen between two bytes. -/
def exampleReceiver (buf : List Nat) (receivedLen expectedLen : Nat) :
    OpenPixelServerBase Unit :=
  { _server := (), _maxDataLen := 8, _timeoutMS := 1000, _data := some buf,
    _receivedLen := receivedLen, _expectedLen := expectedLen, _readTimeout := 1000 }

/-- What happens to a receiver between two observations: a byte goes through the loop body of
`listen()`, or `listen()` performs its timeout check; each with the clock reading. -/
inductive Event where
  | byte (d now : Nat)
  | check (now : Nat)
  deriving DecidableEq, Repr

/-- The receiver after a sequence of per-byte steps and timeout checks. -/
def run (s : OpenPixelServerBase TServer) : List Event → Option (OpenPixelServerBase TServer)
  | [] => some s
  | Event.byte d now :: rest =>
    match s.stepByte d now with
    | none => none
    | some (s1, _) => run s1 rest
  | Event.check now :: rest => run (s.checkTimeout now) rest

end OpenPixelServerBase

open ListenResult

/-! ## Elementary facts on the operations -/

namespace OpenPixelServerBase

variable {TServer : Type}

theorem allocated_iff (s : OpenPixelServerBase TServer) :
    s.Allocated ↔ ∃ buf, s._data = some buf ∧ buf.length = s._maxDataLen + 4 := by
  unfold Allocated
  cases h : s._data <;> simp

theorem readData_of_allocated (s : OpenPixelServerBase TServer) (h : s.Allocated) (i : Nat)
    (hi : i < 4) : ∃ b, s.readData i = some b := by
  obtain ⟨buf, hb, hl⟩ := (allocated_iff s).1 h
  refine ⟨buf[i], ?_⟩
  simp only [readData, hb]
  exact List.getElem?_eq_getElem (by omega)

theorem getDataLength_of_allocated (s : OpenPixelServerBase TServer) (h : s.Allocated) :
    ∃ n, s.getDataLength = some n := by
  obtain ⟨hi, h2⟩ := readData_of_allocated s h 2 (by omega)
  obtain ⟨lo, h3⟩ := readData_of_allocated s h 3 (by omega)
  exact ⟨dataLen hi lo, by simp [getDataLength, h2, h3]⟩

/-- On bytes, `(hi << 8) | lo` is `256 * hi + lo`. -/
theorem dataLen_eq (hi lo : Nat) (hhi : hi < 256) (hlo : lo < 256) :
    dataLen hi lo = 256 * hi + lo := by
  have h := Nat.mul_add_lt_is_or (show lo < 2 ^ 8 by omega) hi
  unfold dataLen
  rw [Nat.shiftLeft_eq, Nat.mul_comm hi (2 ^ 8), ← h]
  omega

/-- The first part of the loop body on a receiver whose block holds `_maxDataLen` bytes. -/
theorem receiveByte_eq (s : OpenPixelServerBase TServer) (d now : Nat) (buf : List Nat)
    (hb : s._data = some buf) (hl : s._maxDataLen ≤ buf.length) :
    s.receiveByte d now = some
      { s with
        _readTimeout := (now + s._timeoutMS) % 4294967296
        _data := some (if s._receivedLen < s._maxDataLen then buf.set s._receivedLen d else buf)
        _receivedLen :=
          if s._receivedLen < s._maxDataLen then (s._receivedLen + 1) % 65536 else s._receivedLen
        _expectedLen := if s._expectedLen = 0 then 65535 else s._expectedLen - 1 } := by
  by_cases hlt : s._receivedLen < s._maxDataLen
  · have hlen : s._receivedLen < buf.length := by omega
    simp only [receiveByte, writeData, hb, hlt, hlen, if_true]
  · simp only [receiveByte, hlt, if_false, hb]

theorem receiveByte_of_allocated (s : OpenPixelServerBase TServer) (d now : Nat)
    (h : s.Allocated) :
    ∃ s1, s.receiveByte d now = some s1 ∧ s1.Allocated ∧ s1._maxDataLen = s._maxDataLen ∧
      s1._timeoutMS = s._timeoutMS := by
  obtain ⟨buf, hb, hl⟩ := (allocated_iff s).1 h
  refine ⟨_, receiveByte_eq s d now buf hb (by omega), ?_, rfl, rfl⟩
  rw [allocated_iff]
  refine ⟨_, rfl, ?_⟩
  split <;> simp [hl]

theorem checkHeader_of_allocated (s : OpenPixelServerBase TServer) (now : Nat)
    (h : s.Allocated) :
    ∃ s1, s.checkHeader now = some s1 ∧ s1.Allocated ∧ s1._maxDataLen = s._maxDataLen ∧
      s1._timeoutMS = s._timeoutMS ∧ s1._data = s._data := by
  obtain ⟨c, hc⟩ := readData_of_allocated s h 1 (by omega)
  obtain ⟨n, hn⟩ := getDataLength_of_allocated s h
  unfold checkHeader
  simp only [getCommand, hc, hn]
  split
  · split
    · exact ⟨_, rfl, h, rfl, rfl, rfl⟩
    · exact ⟨_, rfl, h, rfl, rfl, rfl⟩
  · exact ⟨_, rfl, h, rfl, rfl, rfl⟩

/-- The last part of the loop body on an allocated receiver: it always yields a result, which
is `WORKING` exactly when the expected length is not zero, and otherwise is decided by the
length read from the header bytes. -/
theorem finishPacket_of_allocated (s : OpenPixelServerBase TServer) (now : Nat)
    (h : s.Allocated) :
    ∃ s1 r n, s.finishPacket now = some (s1, r) ∧ s1.Allocated ∧
      s1._maxDataLen = s._maxDataLen ∧ s1._timeoutMS = s._timeoutMS ∧ s1._data = s._data ∧
      s1.getDataLength = some n ∧
      (r ≠ WORKING ↔ s._expectedLen = 0) ∧
      (s._expectedLen = 0 →
        r = if n > s._maxDataLen then IGNORED_PACKET else RECEIVED_PACKET) := by
  obtain ⟨n, hn⟩ := getDataLength_of_allocated s h
  have hn2 : (s._expectNewPacket now).getDataLength = some n := hn
  unfold finishPacket
  split
  · rename_i h0
    simp only [hn2]
    split
    · rename_i hgt
      have hgt2 : n > s._maxDataLen := hgt
      exact ⟨_, _, n, rfl, h, rfl, rfl, rfl, hn2, by simp [h0], by simp [hgt2]⟩
    · rename_i hgt
      have hgt2 : ¬ n > s._maxDataLen := hgt
      exact ⟨_, _, n, rfl, h, rfl, rfl, rfl, hn2, by simp [h0], by simp [hgt2]⟩
  · rename_i h0
    exact ⟨_, _, n, rfl, h, rfl, rfl, rfl, hn, by simp [h0], by simp [h0]⟩

theorem afterHeader_of_allocated (s : OpenPixelServerBase TServer) (d now : Nat)
    (h : s.Allocated) :
    ∃ s1, s.afterHeader d now = some s1 ∧ s1.Allocated ∧ s1._maxDataLen = s._maxDataLen ∧
      s1._timeoutMS = s._timeoutMS := by
  obtain ⟨s1, h1, a1, m1, t1⟩ := receiveByte_of_allocated s d now h
  obtain ⟨s2, h2, a2, m2, t2, -⟩ := checkHeader_of_allocated s1 now a1
  exact ⟨s2, by simp only [afterHeader, h1, h2], a2, by omega, by omega⟩

/-- The loop body never leaves the block of an allocated receiver, and keeps it allocated. -/
theorem stepByte_of_allocated (s : OpenPixelServerBase TServer) (d now : Nat)
    (h : s.Allocated) :
    ∃ s1 r, s.stepByte d now = some (s1, r) ∧ s1.Allocated ∧
      s1._maxDataLen = s._maxDataLen ∧ s1._timeoutMS = s._timeoutMS := by
  obtain ⟨s2, h2, a2, m2, t2⟩ := afterHeader_of_allocated s d now h
  obtain ⟨s3, r, -, h3, a3, m3, t3, -⟩ := finishPacket_of_allocated s2 now a2
  refine ⟨s3, r, ?_, a3, by omega, by omega⟩
  simp only [stepByte, h2, h3]

theorem checkTimeout_allocated (s : OpenPixelServerBase TServer) (now : Nat)
    (h : s.Allocated) : (s.checkTimeout now).Allocated := by
  unfold checkTimeout
  split
  · exact h
  · exact h

/-- The `while` loop of `listen()` on an allocated receiver: it stops at the first byte whose
step returns a packet result, and otherwise reads every byte. -/
theorem drain_of_allocated (bytes : List (Nat × Nat)) :
    ∀ s : OpenPixelServerBase TServer, s.Allocated →
      ∃ s1 r rest, s.drain bytes = some (s1, r, rest) ∧ s1.Allocated ∧
        ((r ≠ WORKING ∧ ∃ pre last s0,
            bytes = pre ++ last :: rest ∧
            s.feed pre = some (s0, List.replicate pre.length WORKING) ∧
            s0.stepByte last.1 last.2 = some (s1, r)) ∨
         (r = WORKING ∧ rest = [] ∧
            s.feed bytes = some (s1, List.replicate bytes.length WORKING))) := by
  induction bytes with
  | nil =>
    intro s h
    exact ⟨s, WORKING, [], rfl, h, Or.inr ⟨rfl, rfl, rfl⟩⟩
  | cons x tl ih =>
    intro s h
    obtain ⟨d, now⟩ := x
    obtain ⟨s1, r, hstep, a1, -, -⟩ := stepByte_of_allocated s d now h
    cases r with
    | WORKING =>
      obtain ⟨s2, r2, rest, hdr, a2, hcases⟩ := ih s1 a1
      refine ⟨s2, r2, rest, ?_, a2, ?_⟩
      · simp only [drain, hstep, hdr]
      · rcases hcases with ⟨hne, pre, last, s0, hsplit, hfeed, hlast⟩ | ⟨heq, hrest, hfeed⟩
        · refine Or.inl ⟨hne, (d, now) :: pre, last, s0, ?_, ?_, hlast⟩
          · rw [hsplit, List.cons_append]
          · simp only [feed, hstep, hfeed, List.length_cons, List.replicate_succ]
        · refine Or.inr ⟨heq, hrest, ?_⟩
          simp only [feed, hstep, hfeed, List.length_cons, List.replicate_succ]
    | RECEIVED_PACKET =>
      refine ⟨s1, RECEIVED_PACKET, tl, ?_, a1, Or.inl ⟨by decide, [], (d, now), s, rfl, rfl, hstep⟩⟩
      simp only [drain, hstep]
    | IGNORED_PACKET =>
      refine ⟨s1, IGNORED_PACKET, tl, ?_, a1, Or.inl ⟨by decide, [], (d, now), s, rfl, rfl, hstep⟩⟩
      simp only [drain, hstep]


/-! ## One step of the loop body, case by case -/

/-- A step that neither completes the header nor the packet: the byte is stored if there is
space and the expected count goes down by one. -/
theorem stepByte_working (s : OpenPixelServerBase TServer) (d now : Nat) (buf : List Nat)
    (hb : s._data = some buf) (hl : s._maxDataLen ≤ buf.length)
    (h4 : (if s._receivedLen < s._maxDataLen then (s._receivedLen + 1) % 65536
            else s._receivedLen) ≠ 4)
    (he : 2 ≤ s._expectedLen) :
    s.stepByte d now = some
      ({ s with
          _readTimeout := (now + s._timeoutMS) % 4294967296
          _data := some (if s._receivedLen < s._maxDataLen then buf.set s._receivedLen d
                          else buf)
          _receivedLen :=
            if s._receivedLen < s._maxDataLen then (s._receivedLen + 1) % 65536
            else s._receivedLen
          _expectedLen := s._expectedLen - 1 }, WORKING) := by
  have he0 : ¬ s._expectedLen = 0 := by omega
  have he1 : ¬ s._expectedLen - 1 = 0 := by omega
  simp only [stepByte, afterHeader, receiveByte_eq s d now buf hb hl, checkHeader, h4,
    if_false, he0, finishPacket, he1]

/-- A step that completes the packet without completing the header: the receiver is reset and
the result is decided by the length found in the header bytes. -/
theorem stepByte_last (s : OpenPixelServerBase TServer) (d now : Nat) (buf : List Nat)
    (hi lo : Nat)
    (hb : s._data = some buf) (hl : s._maxDataLen ≤ buf.length)
    (h4 : (if s._receivedLen < s._maxDataLen then (s._receivedLen + 1) % 65536
            else s._receivedLen) ≠ 4)
    (he : s._expectedLen = 1)
    (h2 : (if s._receivedLen < s._maxDataLen then buf.set s._receivedLen d else buf)[2]?
            = some hi)
    (h3 : (if s._receivedLen < s._maxDataLen then buf.set s._receivedLen d else buf)[3]?
            = some lo) :
    s.stepByte d now = some
      ({ s with
          _readTimeout := (now + s._timeoutMS) % 4294967296
          _data := some (if s._receivedLen < s._maxDataLen then buf.set s._receivedLen d
                          else buf)
          _receivedLen := 0
          _expectedLen := 4 },
        if dataLen hi lo > s._maxDataLen then IGNORED_PACKET else RECEIVED_PACKET) := by
  have he0 : ¬ s._expectedLen = 0 := by omega
  have he1 : s._expectedLen - 1 = 0 := by omega
  simp only [stepByte, afterHeader, receiveByte_eq s d now buf hb hl, checkHeader, h4,
    if_false, he0, finishPacket, he1, if_true, _expectNewPacket, getDataLength, readData,
    h2, h3]
  split <;> rfl

/-- A step that completes a header with a valid command and a length other than zero: the
expected count becomes that length. -/
theorem stepByte_header (s : OpenPixelServerBase TServer) (d now : Nat) (buf : List Nat)
    (c hi lo : Nat)
    (hb : s._data = some buf) (hl : s._maxDataLen ≤ buf.length)
    (h4 : (if s._receivedLen < s._maxDataLen then (s._receivedLen + 1) % 65536
            else s._receivedLen) = 4)
    (h1 : (if s._receivedLen < s._maxDataLen then buf.set s._receivedLen d else buf)[1]?
            = some c)
    (h2 : (if s._receivedLen < s._maxDataLen then buf.set s._receivedLen d else buf)[2]?
            = some hi)
    (h3 : (if s._receivedLen < s._maxDataLen then buf.set s._receivedLen d else buf)[3]?
            = some lo)
    (hc : c = 0 ∨ c = 255) (hn : dataLen hi lo ≠ 0) :
    s.stepByte d now = some
      ({ s with
          _readTimeout := (now + s._timeoutMS) % 4294967296
          _data := some (if s._receivedLen < s._maxDataLen then buf.set s._receivedLen d
                          else buf)
          _receivedLen := 4
          _expectedLen := dataLen hi lo }, WORKING) := by
  have hcmd : ¬ (c ≠ 0 ∧ c ≠ 255) := by omega
  simp only [stepByte, afterHeader, receiveByte_eq s d now buf hb hl, checkHeader, h4,
    if_true, getCommand, readData, h1, hcmd, if_false, getDataLength, h2, h3, finishPacket, hn]

/-- A step that completes a header with a valid command and length zero: the packet is
complete at once. -/
theorem stepByte_header_empty (s : OpenPixelServerBase TServer) (d now : Nat) (buf : List Nat)
    (c hi lo : Nat)
    (hb : s._data = some buf) (hl : s._maxDataLen ≤ buf.length)
    (h4 : (if s._receivedLen < s._maxDataLen then (s._receivedLen + 1) % 65536
            else s._receivedLen) = 4)
    (h1 : (if s._receivedLen < s._maxDataLen then buf.set s._receivedLen d else buf)[1]?
            = some c)
    (h2 : (if s._receivedLen < s._maxDataLen then buf.set s._receivedLen d else buf)[2]?
            = some hi)
    (h3 : (if s._receivedLen < s._maxDataLen then buf.set s._receivedLen d else buf)[3]?
            = some lo)
    (hc : c = 0 ∨ c = 255) (hn : dataLen hi lo = 0) :
    s.stepByte d now = some
      ({ s with
          _readTimeout := (now + s._timeoutMS) % 4294967296
          _data := some (if s._receivedLen < s._maxDataLen then buf.set s._receivedLen d
                          else buf)
          _receivedLen := 0
          _expectedLen := 4 }, RECEIVED_PACKET) := by
  have hcmd : ¬ (c ≠ 0 ∧ c ≠ 255) := by omega
  have hle : ¬ 0 > s._maxDataLen := by omega
  simp only [stepByte, afterHeader, receiveByte_eq s d now buf hb hl, checkHeader, h4,
    if_true, getCommand, readData, h1, hcmd, if_false, getDataLength, h2, h3, finishPacket, hn,
    _expectNewPacket, hle]

/-- A step that completes a header with a command other than 0 and 255: the receiver is
reset and the loop goes on. -/
theorem stepByte_bad_command (s : OpenPixelServerBase TServer) (d now : Nat) (buf : List Nat)
    (c : Nat)
    (hb : s._data = some buf) (hl : s._maxDataLen ≤ buf.length)
    (h4 : (if s._receivedLen < s._maxDataLen then (s._receivedLen + 1) % 65536
            else s._receivedLen) = 4)
    (h1 : (if s._receivedLen < s._maxDataLen then buf.set s._receivedLen d else buf)[1]?
            = some c)
    (hc : c ≠ 0 ∧ c ≠ 255) :
    s.stepByte d now = some
      ({ s with
          _readTimeout := (now + s._timeoutMS) % 4294967296
          _data := some (if s._receivedLen < s._maxDataLen then buf.set s._receivedLen d
                          else buf)
          _receivedLen := 0
          _expectedLen := 4 }, WORKING) := by
  have hc2 : ¬ c = 0 ∧ ¬ c = 255 := hc
  have h40 : ¬ (4 : Nat) = 0 := by omega
  simp only [stepByte, afterHeader, receiveByte_eq s d now buf hb hl, checkHeader, h4,
    if_true, getCommand, readData, h1, ne_eq, hc2, and_self, not_false_eq_true,
    _expectNewPacket, finishPacket, h40, if_false]

/-! ## What every step keeps -/

/-- The header check either resets the receiver or leaves the byte count and the deadline. -/
theorem checkHeader_inv (s s1 : OpenPixelServerBase TServer) (now : Nat)
    (h : s.checkHeader now = some s1) :
    s1 = s._expectNewPacket now ∨
      (s1._receivedLen = s._receivedLen ∧ s1._readTimeout = s._readTimeout ∧
        s1._maxDataLen = s._maxDataLen ∧ s1._timeoutMS = s._timeoutMS ∧
        s1._server = s._server ∧ s1._data = s._data ∧
        (s1._expectedLen = s._expectedLen ∨ s._receivedLen = 4)) := by
  unfold checkHeader at h
  split at h
  · rename_i h4
    split at h
    · exact absurd h (by simp)
    · split at h
      · exact Or.inl (Option.some.inj h).symm
      · split at h
        · exact absurd h (by simp)
        · have e := Option.some.inj h
          subst e
          exact Or.inr ⟨rfl, rfl, rfl, rfl, rfl, rfl, Or.inr h4⟩
  · have e := Option.some.inj h
    subst e
    exact Or.inr ⟨rfl, rfl, rfl, rfl, rfl, rfl, Or.inl rfl⟩

/-- The last part of the loop body either goes on with a count that is not zero, or resets
the receiver and reports a packet. -/
theorem finishPacket_inv (s s1 : OpenPixelServerBase TServer) (now : Nat) (r : ListenResult)
    (h : s.finishPacket now = some (s1, r)) :
    (s._expectedLen ≠ 0 ∧ s1 = s ∧ r = WORKING) ∨
      (s._expectedLen = 0 ∧ s1 = s._expectNewPacket now ∧ r ≠ WORKING) := by
  unfold finishPacket at h
  split at h
  · rename_i h0
    simp only at h
    split at h
    · exact absurd h (by simp)
    · split at h
      · have e := Option.some.inj h
        have e1 := congrArg Prod.fst e
        have e2 := congrArg Prod.snd e
        simp only at e1 e2
        exact Or.inr ⟨h0, e1.symm, by rw [← e2]; decide⟩
      · have e := Option.some.inj h
        have e1 := congrArg Prod.fst e
        have e2 := congrArg Prod.snd e
        simp only at e1 e2
        exact Or.inr ⟨h0, e1.symm, by rw [← e2]; decide⟩
  · rename_i h0
    have e := Option.some.inj h
    have e1 := congrArg Prod.fst e
    have e2 := congrArg Prod.snd e
    simp only at e1 e2
    exact Or.inl ⟨h0, e1.symm, e2.symm⟩

/-- What one step of the loop body does to an allocated receiver, whatever the byte: it
returns, keeps the block allocated and the configuration, sets the deadline from the clock
reading, never leaves the expected count at zero, keeps the byte count within
`_maxDataLen`, and awaits a header after a packet result. -/
theorem stepByte_frame (s : OpenPixelServerBase TServer) (d now : Nat) (h : s.Allocated) :
    ∃ s1 r, s.stepByte d now = some (s1, r) ∧ s1.Allocated ∧
      s1._maxDataLen = s._maxDataLen ∧ s1._timeoutMS = s._timeoutMS ∧
      s1._server = s._server ∧
      s1._readTimeout = (now + s._timeoutMS) % 4294967296 ∧
      1 ≤ s1._expectedLen ∧
      (s._receivedLen ≤ s._maxDataLen → s1._receivedLen ≤ s._maxDataLen) ∧
      (r ≠ WORKING → s1._receivedLen = 0 ∧ s1._expectedLen = 4) := by
  obtain ⟨buf, hb, hl⟩ := (allocated_iff s).1 h
  have hrb := receiveByte_eq s d now buf hb (by omega)
  obtain ⟨sa, hra, aa, -, -⟩ := receiveByte_of_allocated s d now h
  obtain ⟨sb, hcb, ab, -, -, -⟩ := checkHeader_of_allocated sa now aa
  obtain ⟨sc, r, -, hfc, ac, -, -, -, -, -, -⟩ := finishPacket_of_allocated sb now ab
  have hstep : s.stepByte d now = some (sc, r) := by
    simp only [stepByte, afterHeader, hra, hcb, hfc]
  rw [hrb] at hra
  have ea := (Option.some.inj hra).symm
  have ha_mdl : sa._maxDataLen = s._maxDataLen := by rw [ea]
  have ha_tmo : sa._timeoutMS = s._timeoutMS := by rw [ea]
  have ha_srv : sa._server = s._server := by rw [ea]
  have ha_rt : sa._readTimeout = (now + s._timeoutMS) % 4294967296 := by rw [ea]
  have ha_rl : s._receivedLen ≤ s._maxDataLen → sa._receivedLen ≤ s._maxDataLen := by
    intro hle
    rw [ea]
    show (if s._receivedLen < s._maxDataLen then (s._receivedLen + 1) % 65536
      else s._receivedLen) ≤ s._maxDataLen
    split
    · have := Nat.mod_le (s._receivedLen + 1) 65536
      omega
    · exact hle
  have hb_all : sb._maxDataLen = s._maxDataLen ∧ sb._timeoutMS = s._timeoutMS ∧
      sb._server = s._server ∧ sb._readTimeout = (now + s._timeoutMS) % 4294967296 ∧
      (s._receivedLen ≤ s._maxDataLen → sb._receivedLen ≤ s._maxDataLen) := by
    rcases checkHeader_inv sa sb now hcb with e | ⟨e1, e2, e3, e4, e5, -, -⟩
    · subst e
      refine ⟨ha_mdl, ha_tmo, ha_srv, ?_, fun _ => Nat.zero_le _⟩
      show (now + sa._timeoutMS) % 4294967296 = _
      rw [ha_tmo]
    · exact ⟨by omega, by omega, by rw [e5, ha_srv], by omega, fun hle => by
        have := ha_rl hle
        omega⟩
  obtain ⟨hb_mdl, hb_tmo, hb_srv, hb_rt, hb_rl⟩ := hb_all
  refine ⟨sc, r, hstep, ac, ?_⟩
  rcases finishPacket_inv sb sc now r hfc with ⟨h0, e, hr⟩ | ⟨h0, e, hr⟩
  · subst e
    exact ⟨hb_mdl, hb_tmo, hb_srv, hb_rt, by omega, hb_rl, fun hne => absurd hr hne⟩
  · subst e
    refine ⟨hb_mdl, hb_tmo, hb_srv, ?_, by show 1 ≤ 4; omega, fun _ => Nat.zero_le _,
      fun _ => ⟨rfl, rfl⟩⟩
    show (now + sb._timeoutMS) % 4294967296 = _
    rw [hb_tmo]

/-- Every sequence of per-byte steps and timeout checks on an allocated receiver goes
through: each access stays inside the block, the byte count stays within `_maxDataLen` and
the expected count stays above zero. -/
theorem run_invariant (evs : List Event) :
    ∀ s : OpenPixelServerBase TServer, s.Allocated → s._receivedLen ≤ s._maxDataLen →
      1 ≤ s._expectedLen →
      ∃ s1, s.run evs = some s1 ∧ s1.Allocated ∧ s1._maxDataLen = s._maxDataLen ∧
        s1._timeoutMS = s._timeoutMS ∧ s1._receivedLen ≤ s1._maxDataLen ∧
        1 ≤ s1._expectedLen := by
  induction evs with
  | nil =>
    intro s ha hr he
    exact ⟨s, rfl, ha, rfl, rfl, hr, he⟩
  | cons ev rest ih =>
    intro s ha hr he
    cases ev with
    | byte d now =>
      obtain ⟨s1, r, hstep, a1, m1, t1, -, -, e1, r1, -⟩ := stepByte_frame s d now ha
      obtain ⟨s2, hrun, a2, m2, t2, r2, e2⟩ := ih s1 a1 (by have := r1 hr; omega) e1
      refine ⟨s2, ?_, a2, by omega, by omega, r2, e2⟩
      simp only [run, hstep, hrun]
    | check now =>
      have hc : (s.checkTimeout now).Allocated := checkTimeout_allocated s now ha
      have hm : (s.checkTimeout now)._maxDataLen = s._maxDataLen := by
        unfold checkTimeout
        split <;> rfl
      have ht : (s.checkTimeout now)._timeoutMS = s._timeoutMS := by
        unfold checkTimeout
        split <;> rfl
      have hrl : (s.checkTimeout now)._receivedLen ≤ (s.checkTimeout now)._maxDataLen := by
        unfold checkTimeout
        split
        · exact Nat.zero_le _
        · exact hr
      have hel : 1 ≤ (s.checkTimeout now)._expectedLen := by
        unfold checkTimeout
        split
        · show 1 ≤ 4
          omega
        · exact he
      obtain ⟨s2, hrun, a2, m2, t2, r2, e2⟩ := ih (s.checkTimeout now) hc hrl hel
      refine ⟨s2, ?_, a2, by omega, by omega, r2, e2⟩
      simp only [run, hrun]

/-- A receiver whose allocation gave a block of `maxDataLength + 4` bytes starts allocated,
with no byte received and 4 bytes expected. -/
theorem new_allocated (server : TServer) (maxDataLength timeoutMS : Nat)
    (malloc : Nat → Option (List Nat)) (now : Nat) (buf : List Nat)
    (hm : malloc (maxDataLength + 4) = some buf) (hl : buf.length = maxDataLength + 4) :
    (new server maxDataLength timeoutMS malloc now).Allocated ∧
    (new server maxDataLength timeoutMS malloc now)._maxDataLen = maxDataLength ∧
    (new server maxDataLength timeoutMS malloc now)._receivedLen = 0 ∧
    (new server maxDataLength timeoutMS malloc now)._expectedLen = 4 := by
  refine ⟨?_, rfl, rfl, rfl⟩
  rw [allocated_iff]
  exact ⟨buf, hm, hl⟩

/-! ## Feeding a whole packet -/

/-- Feeding two lists of bytes one after the other. -/
theorem feed_append (a b : List (Nat × Nat)) :
    ∀ (s s1 s2 : OpenPixelServerBase TServer) (ra rb : List ListenResult),
      s.feed a = some (s1, ra) → s1.feed b = some (s2, rb) →
      s.feed (a ++ b) = some (s2, ra ++ rb) := by
  induction a with
  | nil =>
    intro s s1 s2 ra rb ha hfb
    have e := Option.some.inj ha
    have e1 : s = s1 := congrArg Prod.fst e
    have e2 : [] = ra := congrArg Prod.snd e
    subst e1
    subst e2
    exact hfb
  | cons x tl ih =>
    intro s s1 s2 ra rb ha hfb
    obtain ⟨d, now⟩ := x
    cases hstep : s.stepByte d now with
    | none =>
      simp only [feed, hstep] at ha
      exact absurd ha (by simp)
    | some p =>
      obtain ⟨sm, r⟩ := p
      cases htl : sm.feed tl with
      | none =>
        simp only [feed, hstep, htl] at ha
        exact absurd ha (by simp)
      | some q =>
        obtain ⟨sn, rs⟩ := q
        simp only [feed, hstep, htl] at ha
        have e := Option.some.inj ha
        have e1 : sn = s1 := congrArg Prod.fst e
        have e2 : r :: rs = ra := congrArg Prod.snd e
        subst e1
        subst e2
        have hrec := ih sm sn s2 rs rb htl hfb
        show s.feed ((d, now) :: (tl ++ b)) = some (s2, r :: rs ++ rb)
        simp only [feed, hstep, hrec, List.cons_append]

/-- The step `stepByte_working`, read off member by member. -/
theorem stepByte_working_fields (s : OpenPixelServerBase TServer) (d now : Nat)
    (buf : List Nat) (hb : s._data = some buf) (hl : s._maxDataLen ≤ buf.length)
    (h4 : (if s._receivedLen < s._maxDataLen then (s._receivedLen + 1) % 65536
            else s._receivedLen) ≠ 4)
    (he : 2 ≤ s._expectedLen) :
    ∃ s1, s.stepByte d now = some (s1, WORKING) ∧
      s1._data = some (if s._receivedLen < s._maxDataLen then buf.set s._receivedLen d
                        else buf) ∧
      s1._maxDataLen = s._maxDataLen ∧
      s1._receivedLen = (if s._receivedLen < s._maxDataLen then (s._receivedLen + 1) % 65536
                          else s._receivedLen) ∧
      s1._expectedLen = s._expectedLen - 1 :=
  ⟨_, stepByte_working s d now buf hb hl h4 he, rfl, rfl, rfl, rfl⟩

/-- The step `stepByte_last`, read off member by member. -/
theorem stepByte_last_fields (s : OpenPixelServerBase TServer) (d now : Nat) (buf : List Nat)
    (hi lo : Nat)
    (hb : s._data = some buf) (hl : s._maxDataLen ≤ buf.length)
    (h4 : (if s._receivedLen < s._maxDataLen then (s._receivedLen + 1) % 65536
            else s._receivedLen) ≠ 4)
    (he : s._expectedLen = 1)
    (h2 : (if s._receivedLen < s._maxDataLen then buf.set s._receivedLen d else buf)[2]?
            = some hi)
    (h3 : (if s._receivedLen < s._maxDataLen then buf.set s._receivedLen d else buf)[3]?
            = some lo) :
    ∃ s1, s.stepByte d now = some
        (s1, if dataLen hi lo > s._maxDataLen then IGNORED_PACKET else RECEIVED_PACKET) ∧
      s1._data = some (if s._receivedLen < s._maxDataLen then buf.set s._receivedLen d
                        else buf) ∧
      s1._maxDataLen = s._maxDataLen ∧ s1._receivedLen = 0 ∧ s1._expectedLen = 4 :=
  ⟨_, stepByte_last s d now buf hi lo hb hl h4 he h2 h3, rfl, rfl, rfl, rfl⟩

/-- The payload phase with room for at least one payload byte (`_maxDataLen ≥ 5`): from a
receiver that has the header (`_receivedLen ≥ 4`) and expects at least as many bytes as are
fed, every byte but the one that brings the count to zero returns `WORKING`; the bytes are
stored from `_receivedLen` on while there is space, the bytes below `_receivedLen` stay, and
the byte that brings the count to zero resets the receiver and returns the packet result. -/
theorem feed_payload (pl : List (Nat × Nat)) :
    ∀ (s : OpenPixelServerBase TServer) (buf : List Nat) (hi lo : Nat),
      s._data = some buf → buf.length = s._maxDataLen + 4 → 5 ≤ s._maxDataLen →
      s._maxDataLen < 65536 → 4 ≤ s._receivedLen → s._receivedLen ≤ s._maxDataLen →
      buf[2]? = some hi → buf[3]? = some lo → 1 ≤ s._expectedLen →
      pl.length ≤ s._expectedLen →
      ∃ s1 buf1 rs, s.feed pl = some (s1, rs) ∧
        s1._data = some buf1 ∧ buf1.length = buf.length ∧ s1._maxDataLen = s._maxDataLen ∧
        (∀ i, i < s._receivedLen → buf1[i]? = buf[i]?) ∧
        (s._receivedLen + pl.length ≤ s._maxDataLen →
          (buf1.drop s._receivedLen).take pl.length = pl.map Prod.fst) ∧
        (pl.length < s._expectedLen →
          rs = List.replicate pl.length WORKING ∧
          s1._expectedLen = s._expectedLen - pl.length ∧
          s1._receivedLen = min (s._receivedLen + pl.length) s._maxDataLen) ∧
        (pl.length = s._expectedLen →
          rs = List.replicate (pl.length - 1) WORKING ++
            [if dataLen hi lo > s._maxDataLen then IGNORED_PACKET else RECEIVED_PACKET] ∧
          s1._receivedLen = 0 ∧ s1._expectedLen = 4) := by
  induction pl with
  | nil =>
    intro s buf hi lo hb hl h5 h16 hr4 hrm h2 h3 he hlen
    refine ⟨s, buf, [], rfl, hb, rfl, rfl, fun _ _ => rfl, fun _ => rfl, ?_, ?_⟩
    · intro _
      exact ⟨rfl, rfl, by simp only [List.length_nil, Nat.add_zero]; omega⟩
    · intro h0
      simp only [List.length_nil] at h0
      omega
  | cons x tl ih =>
    intro s buf hi lo hb hl h5 h16 hr4 hrm h2 h3 he hlen
    obtain ⟨d, now⟩ := x
    simp only [List.length_cons] at hlen
    -- the member values after the store
    have hr1 : (if s._receivedLen < s._maxDataLen then (s._receivedLen + 1) % 65536
        else s._receivedLen) ≠ 4 := by
      split
      · rw [Nat.mod_eq_of_lt (by omega)]
        omega
      · omega
    have hb2 : (if s._receivedLen < s._maxDataLen then buf.set s._receivedLen d else buf)[2]?
        = some hi := by
      split
      · rw [List.getElem?_set_ne (by omega)]
        exact h2
      · exact h2
    have hb3 : (if s._receivedLen < s._maxDataLen then buf.set s._receivedLen d else buf)[3]?
        = some lo := by
      split
      · rw [List.getElem?_set_ne (by omega)]
        exact h3
      · exact h3
    have hblen : (if s._receivedLen < s._maxDataLen then buf.set s._receivedLen d
        else buf).length = buf.length := by
      split
      · exact List.length_set _ _ _
      · rfl
    have hbkeep : ∀ i, i < s._receivedLen →
        (if s._receivedLen < s._maxDataLen then buf.set s._receivedLen d else buf)[i]?
          = buf[i]? := by
      intro i hi4
      split
      · exact List.getElem?_set_ne (by omega)
      · rfl
    by_cases he1 : s._expectedLen = 1
    · -- the byte that completes the packet
      have htl : tl = [] := by
        cases tl with
        | nil => rfl
        | cons y ys =>
          simp only [List.length_cons] at hlen
          omega
      subst htl
      obtain ⟨s1, hstep, hd1, hm1, hrl1, hel1⟩ :=
        stepByte_last_fields s d now buf hi lo hb (by omega) hr1 he1 hb2 hb3
      refine ⟨s1, _,
        [if dataLen hi lo > s._maxDataLen then IGNORED_PACKET else RECEIVED_PACKET],
        ?_, hd1, hblen, hm1, hbkeep, ?_, ?_, ?_⟩
      · simp only [feed, hstep]
      · intro hfit
        simp only [List.length_cons, List.length_nil] at hfit
        have hlt : s._receivedLen < s._maxDataLen := by omega
        rw [if_pos hlt]
        have hin : s._receivedLen < (buf.set s._receivedLen d).length := by
          rw [List.length_set]
          omega
        rw [List.drop_eq_getElem_cons hin]
        simp only [List.length_cons, List.length_nil, List.take_succ_cons, List.take_zero,
          List.map_cons, List.map_nil, List.getElem_set_self]
      · intro hlt
        simp only [List.length_cons, List.length_nil] at hlt
        omega
      · intro _
        exact ⟨rfl, hrl1, hel1⟩
    · -- a byte before the last one
      obtain ⟨s1, hstep, hd1, hm1, hrl1, hel1⟩ :=
        stepByte_working_fields s d now buf hb (by omega) hr1 (by omega)
      have hrl1' : s1._receivedLen = min (s._receivedLen + 1) s._maxDataLen := by
        rw [hrl1]
        split
        · rw [Nat.mod_eq_of_lt (by omega)]
          omega
        · omega
      have g1 : (if s._receivedLen < s._maxDataLen then buf.set s._receivedLen d
          else buf).length = s1._maxDataLen + 4 := by
        rw [hblen, hm1]
        exact hl
      have g2 : 5 ≤ s1._maxDataLen := by omega
      have g3 : s1._maxDataLen < 65536 := by omega
      have g4 : 4 ≤ s1._receivedLen := by omega
      have g5 : s1._receivedLen ≤ s1._maxDataLen := by omega
      have g6 : 1 ≤ s1._expectedLen := by omega
      have g7 : tl.length ≤ s1._expectedLen := by omega
      obtain ⟨s2, buf2, rs, hfeed, hd2, hlen2, hm2, hkeep2, hfit2, hwork2, hdone2⟩ :=
        ih s1 _ hi lo hd1 g1 g2 g3 g4 g5 hb2 hb3 g6 g7
      refine ⟨s2, buf2, WORKING :: rs, ?_, hd2, by rw [hlen2, hblen], by omega, ?_, ?_, ?_, ?_⟩
      · simp only [feed, hstep, hfeed]
      · intro i hi4
        rw [hkeep2 i (by omega)]
        exact hbkeep i hi4
      · intro hfit
        simp only [List.length_cons] at hfit
        have hlt : s._receivedLen < s._maxDataLen := by omega
        have hrl1'' : s1._receivedLen = s._receivedLen + 1 := by omega
        have hsel : buf2[s._receivedLen]? = some d := by
          rw [hkeep2 _ (by omega), if_pos hlt]
          exact List.getElem?_set_self (by omega)
        have hin : s._receivedLen < buf2.length := by
          rw [hlen2, hblen]
          omega
        have hget : buf2[s._receivedLen] = d := by
          have := List.getElem?_eq_getElem hin
          rw [hsel] at this
          exact (Option.some.inj this).symm
        have htail := hfit2 (by omega)
        rw [hrl1''] at htail
        rw [List.drop_eq_getElem_cons hin, hget]
        simp only [List.length_cons, List.take_succ_cons, List.map_cons, htail]
      · intro hlt
        simp only [List.length_cons] at hlt
        obtain ⟨e1, e2, e3⟩ := hwork2 (by omega)
        refine ⟨by rw [e1]; rfl, by simp only [List.length_cons]; omega, ?_⟩
        simp only [List.length_cons]
        omega
      · intro heq
        simp only [List.length_cons] at heq
        obtain ⟨e1, e2, e3⟩ := hdone2 (by omega)
        refine ⟨?_, e2, e3⟩
        have hpos : 1 ≤ tl.length := by omega
        rw [e1, hm1]
        simp only [List.length_cons, Nat.add_sub_cancel]
        obtain ⟨k, hk⟩ : ∃ k, tl.length = k + 1 := ⟨tl.length - 1, by omega⟩
        rw [hk]
        simp only [Nat.add_sub_cancel, List.replicate_succ, List.cons_append]

/-- The step `stepByte_header`, read off member by member. -/
theorem stepByte_header_fields (s : OpenPixelServerBase TServer) (d now : Nat)
    (buf : List Nat) (c hi lo : Nat)
    (hb : s._data = some buf) (hl : s._maxDataLen ≤ buf.length)
    (h4 : (if s._receivedLen < s._maxDataLen then (s._receivedLen + 1) % 65536
            else s._receivedLen) = 4)
    (h1 : (if s._receivedLen < s._maxDataLen then buf.set s._receivedLen d else buf)[1]?
            = some c)
    (h2 : (if s._receivedLen < s._maxDataLen then buf.set s._receivedLen d else buf)[2]?
            = some hi)
    (h3 : (if s._receivedLen < s._maxDataLen then buf.set s._receivedLen d else buf)[3]?
            = some lo)
    (hc : c = 0 ∨ c = 255) (hn : dataLen hi lo ≠ 0) :
    ∃ s1, s.stepByte d now = some (s1, WORKING) ∧
      s1._data = some (if s._receivedLen < s._maxDataLen then buf.set s._receivedLen d
                        else buf) ∧
      s1._maxDataLen = s._maxDataLen ∧ s1._receivedLen = 4 ∧
      s1._expectedLen = dataLen hi lo :=
  ⟨_, stepByte_header s d now buf c hi lo hb hl h4 h1 h2 h3 hc hn, rfl, rfl, rfl, rfl⟩

/-- The step `stepByte_header_empty`, read off member by member. -/
theorem stepByte_header_empty_fields (s : OpenPixelServerBase TServer) (d now : Nat)
    (buf : List Nat) (c hi lo : Nat)
    (hb : s._data = some buf) (hl : s._maxDataLen ≤ buf.length)
    (h4 : (if s._receivedLen < s._maxDataLen then (s._receivedLen + 1) % 65536
            else s._receivedLen) = 4)
    (h1 : (if s._receivedLen < s._maxDataLen then buf.set s._receivedLen d else buf)[1]?
            = some c)
    (h2 : (if s._receivedLen < s._maxDataLen then buf.set s._receivedLen d else buf)[2]?
            = some hi)
    (h3 : (if s._receivedLen < s._maxDataLen then buf.set s._receivedLen d else buf)[3]?
            = some lo)
    (hc : c = 0 ∨ c = 255) (hn : dataLen hi lo = 0) :
    ∃ s1, s.stepByte d now = some (s1, RECEIVED_PACKET) ∧
      s1._data = some (if s._receivedLen < s._maxDataLen then buf.set s._receivedLen d
                        else buf) ∧
      s1._maxDataLen = s._maxDataLen ∧ s1._receivedLen = 0 ∧ s1._expectedLen = 4 :=
  ⟨_, stepByte_header_empty s d now buf c hi lo hb hl h4 h1 h2 h3 hc hn, rfl, rfl, rfl, rfl⟩

/-- The four header bytes, with a valid command, fed to a receiver that awaits a header and
has room for them (`_maxDataLen ≥ 4`): they are stored at indices 0 to 3; the first three
return `WORKING`; the fourth sets the expected count to the declared length and returns
`WORKING`, or, if that length is zero, completes the packet with `RECEIVED_PACKET`. -/
theorem feed_header (s : OpenPixelServerBase TServer) (buf : List Nat)
    (ch c hi lo t1 t2 t3 t4 : Nat)
    (hb : s._data = some buf) (hl : buf.length = s._maxDataLen + 4) (h4 : 4 ≤ s._maxDataLen)
    (hrl : s._receivedLen = 0) (hel : s._expectedLen = 4) (hc : c = 0 ∨ c = 255) :
    ∃ s4 buf4 res, s.feed [(ch, t1), (c, t2), (hi, t3), (lo, t4)]
        = some (s4, [WORKING, WORKING, WORKING, res]) ∧
      s4._data = some buf4 ∧ buf4.length = buf.length ∧ s4._maxDataLen = s._maxDataLen ∧
      buf4[0]? = some ch ∧ buf4[1]? = some c ∧ buf4[2]? = some hi ∧ buf4[3]? = some lo ∧
      (dataLen hi lo ≠ 0 →
        res = WORKING ∧ s4._receivedLen = 4 ∧ s4._expectedLen = dataLen hi lo) ∧
      (dataLen hi lo = 0 →
        res = RECEIVED_PACKET ∧ s4._receivedLen = 0 ∧ s4._expectedLen = 4) := by
  -- first byte
  have a0 : s._receivedLen < s._maxDataLen := by omega
  have n0 : (if s._receivedLen < s._maxDataLen then (s._receivedLen + 1) % 65536
      else s._receivedLen) ≠ 4 := by
    rw [if_pos a0]
    omega
  obtain ⟨s1, hs1, hd1, hm1, hr1, he1⟩ :=
    stepByte_working_fields s ch t1 buf hb (by omega) n0 (by omega)
  rw [if_pos a0, hrl] at hd1
  rw [if_pos a0] at hr1
  have hr1' : s1._receivedLen = 1 := by omega
  have hlen1 : (buf.set 0 ch).length = s1._maxDataLen + 4 := by
    rw [List.length_set, hm1]
    exact hl
  -- second byte
  have a1 : s1._receivedLen < s1._maxDataLen := by omega
  have n1 : (if s1._receivedLen < s1._maxDataLen then (s1._receivedLen + 1) % 65536
      else s1._receivedLen) ≠ 4 := by
    rw [if_pos a1]
    omega
  obtain ⟨s2, hs2, hd2, hm2, hr2, he2⟩ :=
    stepByte_working_fields s1 c t2 _ hd1 (by omega) n1 (by omega)
  rw [if_pos a1, hr1'] at hd2
  rw [if_pos a1] at hr2
  have hr2' : s2._receivedLen = 2 := by omega
  have hlen2 : ((buf.set 0 ch).set 1 c).length = s2._maxDataLen + 4 := by
    rw [List.length_set, hm2]
    exact hlen1
  -- third byte
  have a2 : s2._receivedLen < s2._maxDataLen := by omega
  have n2 : (if s2._receivedLen < s2._maxDataLen then (s2._receivedLen + 1) % 65536
      else s2._receivedLen) ≠ 4 := by
    rw [if_pos a2]
    omega
  obtain ⟨s3, hs3, hd3, hm3, hr3, he3⟩ :=
    stepByte_working_fields s2 hi t3 _ hd2 (by omega) n2 (by omega)
  rw [if_pos a2, hr2'] at hd3
  rw [if_pos a2] at hr3
  have hr3' : s3._receivedLen = 3 := by omega
  have hlen3 : (((buf.set 0 ch).set 1 c).set 2 hi).length = s3._maxDataLen + 4 := by
    rw [List.length_set, hm3]
    exact hlen2
  -- fourth byte
  have a3 : s3._receivedLen < s3._maxDataLen := by omega
  have n3 : (if s3._receivedLen < s3._maxDataLen then (s3._receivedLen + 1) % 65536
      else s3._receivedLen) = 4 := by
    rw [if_pos a3]
    omega
  have hlenb : 4 ≤ buf.length := by omega
  have hbuf4 : (if s3._receivedLen < s3._maxDataLen
      then (((buf.set 0 ch).set 1 c).set 2 hi).set s3._receivedLen lo
      else ((buf.set 0 ch).set 1 c).set 2 hi)
        = (((buf.set 0 ch).set 1 c).set 2 hi).set 3 lo := by
    rw [if_pos a3, hr3']
  have g0 : ((((buf.set 0 ch).set 1 c).set 2 hi).set 3 lo)[0]? = some ch := by
    rw [List.getElem?_set_ne (by omega), List.getElem?_set_ne (by omega),
      List.getElem?_set_ne (by omega)]
    exact List.getElem?_set_self (by omega)
  have g1 : ((((buf.set 0 ch).set 1 c).set 2 hi).set 3 lo)[1]? = some c := by
    rw [List.getElem?_set_ne (by omega), List.getElem?_set_ne (by omega)]
    exact List.getElem?_set_self (by rw [List.length_set]; omega)
  have g2 : ((((buf.set 0 ch).set 1 c).set 2 hi).set 3 lo)[2]? = some hi := by
    rw [List.getElem?_set_ne (by omega)]
    exact List.getElem?_set_self (by rw [List.length_set, List.length_set]; omega)
  have g3 : ((((buf.set 0 ch).set 1 c).set 2 hi).set 3 lo)[3]? = some lo :=
    List.getElem?_set_self (by rw [List.length_set, List.length_set, List.length_set]; omega)
  have glen : ((((buf.set 0 ch).set 1 c).set 2 hi).set 3 lo).length = buf.length := by
    rw [List.length_set, List.length_set, List.length_set, List.length_set]
  by_cases hn : dataLen hi lo = 0
  · obtain ⟨s4, hs4, hd4, hm4, hr4, he4⟩ :=
      stepByte_header_empty_fields s3 lo t4 _ c hi lo hd3 (by omega) n3
        (by rw [hbuf4]; exact g1) (by rw [hbuf4]; exact g2) (by rw [hbuf4]; exact g3) hc hn
    rw [hbuf4] at hd4
    refine ⟨s4, _, RECEIVED_PACKET, ?_, hd4, glen, by omega, g0, g1, g2, g3,
      fun hne => absurd hn hne, fun _ => ⟨rfl, hr4, he4⟩⟩
    simp only [feed, hs1, hs2, hs3, hs4]
  · obtain ⟨s4, hs4, hd4, hm4, hr4, he4⟩ :=
      stepByte_header_fields s3 lo t4 _ c hi lo hd3 (by omega) n3
        (by rw [hbuf4]; exact g1) (by rw [hbuf4]; exact g2) (by rw [hbuf4]; exact g3) hc hn
    rw [hbuf4] at hd4
    refine ⟨s4, _, WORKING, ?_, hd4, glen, by omega, g0, g1, g2, g3,
      fun _ => ⟨rfl, hr4, he4⟩, fun h0 => absurd h0 hn⟩
    simp only [feed, hs1, hs2, hs3, hs4]

/-- The stall at `_maxDataLen = 4`: with a complete header in the block that has a valid
command and declares a length other than zero, every further byte is dropped, the header is
parsed again, and the step returns `WORKING`. -/
theorem feed_stall (more : List (Nat × Nat)) :
    ∀ (s : OpenPixelServerBase TServer) (buf : List Nat) (c hi lo : Nat),
      s._data = some buf → s._maxDataLen ≤ buf.length → s._maxDataLen = 4 →
      s._receivedLen = 4 → s._expectedLen = dataLen hi lo →
      buf[1]? = some c → buf[2]? = some hi → buf[3]? = some lo →
      (c = 0 ∨ c = 255) → dataLen hi lo ≠ 0 →
      ∃ s1, s.feed more = some (s1, List.replicate more.length WORKING) ∧
        s1._data = some buf ∧ s1._maxDataLen = 4 ∧ s1._receivedLen = 4 ∧
        s1._expectedLen = dataLen hi lo := by
  induction more with
  | nil =>
    intro s buf c hi lo hb hl hm hr he h1 h2 h3 hc hn
    exact ⟨s, rfl, hb, hm, hr, he⟩
  | cons x tl ih =>
    intro s buf c hi lo hb hl hm hr he h1 h2 h3 hc hn
    obtain ⟨d, now⟩ := x
    have hfull : ¬ s._receivedLen < s._maxDataLen := by omega
    have n4 : (if s._receivedLen < s._maxDataLen then (s._receivedLen + 1) % 65536
        else s._receivedLen) = 4 := by
      rw [if_neg hfull]
      exact hr
    have hsame : (if s._receivedLen < s._maxDataLen then buf.set s._receivedLen d else buf)
        = buf := if_neg hfull
    obtain ⟨s1, hstep, hd1, hm1, hr1, he1⟩ :=
      stepByte_header_fields s d now buf c hi lo hb hl n4
        (by rw [hsame]; exact h1) (by rw [hsame]; exact h2) (by rw [hsame]; exact h3) hc hn
    rw [hsame] at hd1
    have hl1 : s1._maxDataLen ≤ buf.length := by omega
    have hm1' : s1._maxDataLen = 4 := by omega
    obtain ⟨s2, hfeed, hd2, hm2, hr2, he2⟩ :=
      ih s1 buf c hi lo hd1 hl1 hm1' hr1 he1 h1 h2 h3 hc hn
    refine ⟨s2, ?_, hd2, hm2, hr2, he2⟩
    simp only [feed, hstep, hfeed, List.length_cons, List.replicate_succ]

/-- The accessors read the first four bytes of the block. -/
theorem accessors_of_header (s : OpenPixelServerBase TServer) (buf : List Nat)
    (ch c hi lo : Nat) (hb : s._data = some buf)
    (h0 : buf[0]? = some ch) (h1 : buf[1]? = some c) (h2 : buf[2]? = some hi)
    (h3 : buf[3]? = some lo) :
    s.getChannel = some ch ∧ s.getCommand = some c ∧
      s.getDataLength = some (dataLen hi lo) := by
  refine ⟨?_, ?_, ?_⟩
  · simp only [getChannel, readData, hb, h0]
  · simp only [getCommand, readData, hb, h1]
  · simp only [getDataLength, readData, hb, h2, h3]

/-- The two bytes `L / 256` and `L % 256` declare the length `L`. -/
theorem dataLen_div_mod (L : Nat) (hL : L < 65536) : dataLen (L / 256) (L % 256) = L := by
  rw [dataLen_eq (L / 256) (L % 256) (by omega) (by omega)]
  omega

end OpenPixelServerBase

/-! ## The claims -/

section Claims

open OpenPixelServerBase

/-- C1 (defect in the code).  Round trip: a payload no longer than `maxDataLength` should be
readable after `RECEIVED_PACKET`.  With `maxDataLength = 6` the packet `[1,0,0,3,10,20,30]` is
reported as `RECEIVED_PACKET` on its last byte, with channel 1, command 0 and length 3, but
the three bytes at `getData()` are `[10,20,0]`: the store guard `_receivedLen < _maxDataLen`
counts the 4 header bytes against `maxDataLength`, so the byte 30 is never written. -/
theorem roundTrip_drops_payload_tail :
    ∃ s : OpenPixelServerBase Unit,
      (new () 6 1000 mallocZero 0).feed (stamp 0 [1, 0, 0, 3, 10, 20, 30])
        = some (s, [WORKING, WORKING, WORKING, WORKING, WORKING, WORKING, RECEIVED_PACKET]) ∧
      s.getChannel = some 1 ∧ s.getCommand = some 0 ∧ s.getDataLength = some 3 ∧
      s.payload = some [10, 20, 0] ∧ s.payload ≠ some [10, 20, 30] :=
  ⟨_, rfl, rfl, rfl, rfl, rfl, by decide⟩

/-- C2 (defect in the code).  Oversized discard: a header declaring more than `maxDataLength`
bytes should end in one `IGNORED_PACKET`.  With `maxDataLength = 4` the header `[1,0,0,5]`,
its 5 payload bytes and the valid packet `[2,0,0,1,9]` after them all return `WORKING`:
`_receivedLen` stays 4, so the header is parsed again on every byte and `_expectedLen` is set
back to 5. -/
theorem oversized_never_reported_at_four :
    ∃ s : OpenPixelServerBase Unit,
      (new () 4 1000 mallocZero 0).feed
          (stamp 0 ([1, 0, 0, 5] ++ [7, 7, 7, 7, 7] ++ [2, 0, 0, 1, 9]))
        = some (s, List.replicate 14 WORKING) ∧
      s._receivedLen = 4 ∧ s._expectedLen = 5 ∧ ¬ s.AwaitingHeader :=
  ⟨_, rfl, rfl, rfl, by decide⟩

/-- C3 (defect in the code).  Invalid command resync: the 4 bytes of a header with a command
other than 0 and 255 should all return `WORKING`.  With `maxDataLength = 3` the 4th byte of
`[2,99,0,1]` is not stored, `_receivedLen` never reaches 4, the command is never looked at, and
the 4th byte returns a packet result (`RECEIVED_PACKET` or `IGNORED_PACKET`, by the byte that
the block happens to hold at index 3), whatever the memory held after allocation. -/
theorem invalid_command_reported_at_three (b0 b1 b2 b3 b4 b5 b6 : Nat) :
    ∃ r : ListenResult,
      (new () 3 1000 (fun _ => some [b0, b1, b2, b3, b4, b5, b6]) 0).feed
          (stamp 0 [2, 99, 0, 1])
        = some ({ _server := (), _maxDataLen := 3, _timeoutMS := 1000,
                  _data := some [2, 99, 0, b3, b4, b5, b6], _receivedLen := 0,
                  _expectedLen := 4, _readTimeout := 1000 },
                [WORKING, WORKING, WORKING, r]) ∧
      r ≠ WORKING ∧
      (b3 = 0 → r = RECEIVED_PACKET) := by
  by_cases h : dataLen 0 b3 > 3
  · refine ⟨IGNORED_PACKET, ?_, by decide, ?_⟩
    · simp [feed, stamp, stepByte, afterHeader, receiveByte, writeData, checkHeader,
        finishPacket, getDataLength, readData, new, _expectNewPacket, h]
    · intro h0
      subst h0
      exact absurd h (by decide)
  · refine ⟨RECEIVED_PACKET, ?_, by decide, fun _ => rfl⟩
    simp [feed, stamp, stepByte, afterHeader, receiveByte, writeData, checkHeader,
        finishPacket, getDataLength, readData, new, _expectNewPacket, h]

/-- C4 (counterexample).  The comparison `millis() >= _readTimeout` is between the two 32-bit
values as they are, so it is not safe across the wrap of the clock.  After the bytes `[5,0]`
read at `t = 2^32 - 1500` with `timeoutMS = 1000` the deadline is `2^32 - 500`; after
`e = 2000 ≥ timeoutMS` of silence the clock reads `500` and the check does not fire
(`_receivedLen` stays 2).  Read at `t = 2^32 - 500` instead, the deadline wraps to `500`; after
only `e = 100 < timeoutMS` the clock reads `2^32 - 400`, the check fires and the two bytes are
dropped. -/
theorem checkTimeout_not_wraparound_safe :
    ∃ s1 s2 : OpenPixelServerBase Unit,
      (new () 8 1000 mallocZero 4294965796).feed (stamp 4294965796 [5, 0])
        = some (s1, [WORKING, WORKING]) ∧
      s1._readTimeout = (4294965796 + s1._timeoutMS) % 4294967296 ∧
      s1._timeoutMS ≤ 2000 ∧ s1._receivedLen = 2 ∧
      (s1.checkTimeout ((4294965796 + 2000) % 4294967296))._receivedLen = 2 ∧
      (new () 8 1000 mallocZero 4294966796).feed (stamp 4294966796 [5, 0])
        = some (s2, [WORKING, WORKING]) ∧
      s2._readTimeout = (4294966796 + s2._timeoutMS) % 4294967296 ∧
      100 < s2._timeoutMS ∧ s2._receivedLen = 2 ∧
      (s2.checkTimeout ((4294966796 + 100) % 4294967296))._receivedLen = 0 :=
  ⟨_, _, rfl, rfl, by decide, rfl, rfl, rfl, rfl, by decide, rfl, rfl⟩

/-- C4 (amended).  Idle timeout away from the wrap of the clock: let the last byte or reset
have happened at the 32-bit time `t`, so that the deadline is `(t + timeoutMS) mod 2^32`, and
let the check run `e` milliseconds later, at `(t + e) mod 2^32`.  If `t + timeoutMS` and
`t + e` lie on the same side of `2^32`, the check resets the receiver to the awaiting-header
state when `e ≥ timeoutMS` and leaves it untouched when `e < timeoutMS`. -/
theorem checkTimeout_idle_same_epoch {TServer : Type} (s : OpenPixelServerBase TServer)
    (t e : Nat) (ht : t < 4294967296) (hT : s._timeoutMS < 4294967296) (he : e < 4294967296)
    (hd : s._readTimeout = (t + s._timeoutMS) % 4294967296)
    (hw : t + s._timeoutMS < 4294967296 ↔ t + e < 4294967296) :
    (s._timeoutMS ≤ e →
      s.checkTimeout ((t + e) % 4294967296) = s._expectNewPacket ((t + e) % 4294967296) ∧
      (s.checkTimeout ((t + e) % 4294967296))._receivedLen = 0 ∧
      (s.checkTimeout ((t + e) % 4294967296))._expectedLen = 4) ∧
    (e < s._timeoutMS → s.checkTimeout ((t + e) % 4294967296) = s) := by
  constructor
  · intro hle
    have hfire : (t + e) % 4294967296 ≥ s._readTimeout := by
      rw [hd]
      omega
    have hc : s.checkTimeout ((t + e) % 4294967296)
        = s._expectNewPacket ((t + e) % 4294967296) := by
      unfold checkTimeout
      rw [if_pos hfire]
    rw [hc]
    exact ⟨rfl, rfl, rfl⟩
  · intro hlt
    have hquiet : ¬ (t + e) % 4294967296 ≥ s._readTimeout := by
      rw [hd]
      omega
    unfold checkTimeout
    rw [if_neg hquiet]

/-- Witness for C4 (amended): the bytes `[5,0]` read at time 0 with `timeoutMS = 1000`; after
1001 ms of silence the check fires and `_receivedLen` is 0, after 999 ms nothing changes. -/
theorem checkTimeout_idle_same_epoch_witness :
    (new () 8 1000 mallocZero 0).feed (stamp 0 [5, 0])
      = some (exampleReceiver [5, 0, 0, 0, 0, 0, 0, 0, 0, 0, 0, 0] 2 2, [WORKING, WORKING]) ∧
    ((exampleReceiver [5, 0, 0, 0, 0, 0, 0, 0, 0, 0, 0, 0] 2 2).checkTimeout
      ((0 + 1001) % 4294967296))._receivedLen = 0 ∧
    (exampleReceiver [5, 0, 0, 0, 0, 0, 0, 0, 0, 0, 0, 0] 2 2).checkTimeout
      ((0 + 999) % 4294967296) = exampleReceiver [5, 0, 0, 0, 0, 0, 0, 0, 0, 0, 0, 0] 2 2 :=
  ⟨by decide,
    ((checkTimeout_idle_same_epoch (exampleReceiver [5, 0, 0, 0, 0, 0, 0, 0, 0, 0, 0, 0] 2 2)
      0 1001 (by decide) (by decide) (by decide) (by decide) (by decide)).1 (by decide)).2.1,
    (checkTimeout_idle_same_epoch (exampleReceiver [5, 0, 0, 0, 0, 0, 0, 0, 0, 0, 0, 0] 2 2)
      0 999 (by decide) (by decide) (by decide) (by decide) (by decide)).2 (by decide)⟩

/-- C5.  Result classification: on an allocated receiver the loop body returns a result other
than `WORKING` exactly when `_expectedLen` is 0 after the decrement and the header handling;
the result is then `IGNORED_PACKET` if `getDataLength()` exceeds `maxDataLength` and
`RECEIVED_PACKET` otherwise.  So after `RECEIVED_PACKET` the length is at most `maxDataLength`
and the `getDataLength()` bytes from offset 4 lie inside the block of `maxDataLength + 4`
bytes. -/
theorem stepByte_result_classification {TServer : Type} (s : OpenPixelServerBase TServer)
    (d now : Nat) (h : s.Allocated) :
    ∃ mid s1 r n buf,
      s.afterHeader d now = some mid ∧ s.stepByte d now = some (s1, r) ∧
      s1._maxDataLen = s._maxDataLen ∧
      s1.getDataLength = some n ∧
      s1._data = some buf ∧ buf.length = s._maxDataLen + 4 ∧
      (r ≠ WORKING ↔ mid._expectedLen = 0) ∧
      (mid._expectedLen = 0 →
        r = if n > s._maxDataLen then IGNORED_PACKET else RECEIVED_PACKET) ∧
      (r = RECEIVED_PACKET →
        n ≤ s._maxDataLen ∧ 4 + n ≤ buf.length ∧
        s1.payload = some ((buf.drop 4).take n)) := by
  obtain ⟨mid, hmid, amid, mmid, -⟩ := afterHeader_of_allocated s d now h
  obtain ⟨s1, r, n, hfin, a1, m1, -, -, hn, hiff, hres⟩ := finishPacket_of_allocated mid now amid
  obtain ⟨buf, hbuf, hlen⟩ := (allocated_iff s1).1 a1
  have hm : s1._maxDataLen = s._maxDataLen := by omega
  rw [mmid] at hres
  refine ⟨mid, s1, r, n, buf, hmid, ?_, hm, hn, hbuf, by omega, hiff, hres, ?_⟩
  · simp only [stepByte, hmid, hfin]
  · intro hr
    have h0 : mid._expectedLen = 0 := hiff.1 (by rw [hr]; decide)
    have hr2 := hres h0
    have hle : n ≤ s._maxDataLen := by
      by_contra hgt
      rw [if_pos (by omega), hr] at hr2
      exact absurd hr2 (by decide)
    refine ⟨hle, by omega, ?_⟩
    have hdl : n ≤ (buf.drop 4).length := by
      rw [List.length_drop]
      omega
    simp only [payload, hn, getData, hbuf, hdl, if_true]

/-- Witness for C5: the last byte of the packet `[1,0,0,1,9]`. -/
theorem stepByte_result_classification_witness :
    (exampleReceiver [1, 0, 0, 1, 0, 0, 0, 0, 0, 0, 0, 0] 4 1).Allocated ∧
    ∃ mid s1 r n buf,
      (exampleReceiver [1, 0, 0, 1, 0, 0, 0, 0, 0, 0, 0, 0] 4 1).afterHeader 9 0 = some mid ∧
      (exampleReceiver [1, 0, 0, 1, 0, 0, 0, 0, 0, 0, 0, 0] 4 1).stepByte 9 0 = some (s1, r) ∧
      s1._maxDataLen = (exampleReceiver [1, 0, 0, 1, 0, 0, 0, 0, 0, 0, 0, 0] 4 1)._maxDataLen ∧
      s1.getDataLength = some n ∧
      s1._data = some buf ∧
      buf.length = (exampleReceiver [1, 0, 0, 1, 0, 0, 0, 0, 0, 0, 0, 0] 4 1)._maxDataLen + 4 ∧
      (r ≠ WORKING ↔ mid._expectedLen = 0) ∧
      (mid._expectedLen = 0 →
        r = if n > (exampleReceiver [1, 0, 0, 1, 0, 0, 0, 0, 0, 0, 0, 0] 4 1)._maxDataLen
          then IGNORED_PACKET else RECEIVED_PACKET) ∧
      (r = RECEIVED_PACKET →
        n ≤ (exampleReceiver [1, 0, 0, 1, 0, 0, 0, 0, 0, 0, 0, 0] 4 1)._maxDataLen ∧
        4 + n ≤ buf.length ∧
        s1.payload = some ((buf.drop 4).take n)) :=
  ⟨by decide,
    stepByte_result_classification
      (exampleReceiver [1, 0, 0, 1, 0, 0, 0, 0, 0, 0, 0, 0] 4 1) 9 0 (by decide)⟩

/-- C6.  Drain until a packet: on an allocated receiver `listen()`, after its timeout check,
reads the available bytes up to and including the first one whose step returns
`RECEIVED_PACKET` or `IGNORED_PACKET` (every byte before it returns `WORKING`), returns that
result and leaves the later bytes unread, the state being the one that step produced; if no
byte completes a packet, or there is no client, it reads every available byte and returns
`WORKING`. -/
theorem listen_drains_until_packet {TServer : Type} (s : OpenPixelServerBase TServer)
    (now : Nat) (client : Option (List (Nat × Nat))) (h : s.Allocated) :
    ∃ s1 r rest, s.listen now client = some (s1, r, rest) ∧
      ((r ≠ WORKING ∧ ∃ pre last s0,
          client = some (pre ++ last :: rest) ∧
          (s.checkTimeout now).feed pre = some (s0, List.replicate pre.length WORKING) ∧
          s0.stepByte last.1 last.2 = some (s1, r)) ∨
       (r = WORKING ∧ rest = [] ∧
          (s.checkTimeout now).feed (client.getD [])
            = some (s1, List.replicate (client.getD []).length WORKING))) := by
  cases client with
  | none =>
    exact ⟨s.checkTimeout now, WORKING, [], rfl, Or.inr ⟨rfl, rfl, rfl⟩⟩
  | some bytes =>
    obtain ⟨s1, r, rest, hdr, -, hcases⟩ :=
      drain_of_allocated bytes (s.checkTimeout now) (checkTimeout_allocated s now h)
    refine ⟨s1, r, rest, hdr, ?_⟩
    rcases hcases with ⟨hne, pre, last, s0, hsplit, hfeed, hlast⟩ | ⟨heq, hrest, hfeed⟩
    · exact Or.inl ⟨hne, pre, last, s0, by rw [hsplit], hfeed, hlast⟩
    · exact Or.inr ⟨heq, hrest, hfeed⟩

/-- Witness for C6: the packet `[1,0,0,1,9]` followed by the first two bytes of the next one;
`listen()` returns `RECEIVED_PACKET` and leaves those two bytes unread. -/
theorem listen_drains_until_packet_witness :
    (exampleReceiver [0, 0, 0, 0, 0, 0, 0, 0, 0, 0, 0, 0] 0 4).Allocated ∧
    (exampleReceiver [0, 0, 0, 0, 0, 0, 0, 0, 0, 0, 0, 0] 0 4).listen 0
        (some (stamp 0 [1, 0, 0, 1, 9, 2, 0]))
      = some (exampleReceiver [1, 0, 0, 1, 9, 0, 0, 0, 0, 0, 0, 0] 0 4, RECEIVED_PACKET,
          stamp 0 [2, 0]) ∧
    ∃ s1 r rest,
      (exampleReceiver [0, 0, 0, 0, 0, 0, 0, 0, 0, 0, 0, 0] 0 4).listen 0
        (some (stamp 0 [1, 0, 0, 1, 9, 2, 0])) = some (s1, r, rest) ∧
      ((r ≠ WORKING ∧ ∃ pre last s0,
          some (stamp 0 [1, 0, 0, 1, 9, 2, 0]) = some (pre ++ last :: rest) ∧
          ((exampleReceiver [0, 0, 0, 0, 0, 0, 0, 0, 0, 0, 0, 0] 0 4).checkTimeout 0).feed pre
            = some (s0, List.replicate pre.length WORKING) ∧
          s0.stepByte last.1 last.2 = some (s1, r)) ∨
       (r = WORKING ∧ rest = [] ∧
          ((exampleReceiver [0, 0, 0, 0, 0, 0, 0, 0, 0, 0, 0, 0] 0 4).checkTimeout 0).feed
              ((some (stamp 0 [1, 0, 0, 1, 9, 2, 0])).getD [])
            = some (s1, List.replicate
                ((some (stamp 0 [1, 0, 0, 1, 9, 2, 0])).getD []).length WORKING))) :=
  ⟨by decide, by decide,
    listen_drains_until_packet (exampleReceiver [0, 0, 0, 0, 0, 0, 0, 0, 0, 0, 0, 0] 0 4) 0
      (some (stamp 0 [1, 0, 0, 1, 9, 2, 0])) (by decide)⟩

/-- C7.  Timeout check: if `now ≥ _readTimeout` the check puts the receiver in the
awaiting-header state (`_expectedLen = 4`, `_receivedLen = 0`, deadline `now + timeoutMS` in
32-bit arithmetic); otherwise it changes nothing.  In both cases the buffer, `maxDataLength`
and `timeoutMS` are as before. -/
theorem checkTimeout_spec {TServer : Type} (s : OpenPixelServerBase TServer) (now : Nat) :
    (now ≥ s._readTimeout →
      (s.checkTimeout now)._expectedLen = 4 ∧ (s.checkTimeout now)._receivedLen = 0 ∧
      (s.checkTimeout now)._readTimeout = (now + s._timeoutMS) % 4294967296) ∧
    (¬ now ≥ s._readTimeout → s.checkTimeout now = s) ∧
    (s.checkTimeout now)._data = s._data ∧
    (s.checkTimeout now)._maxDataLen = s._maxDataLen ∧
    (s.checkTimeout now)._timeoutMS = s._timeoutMS ∧
    (s.checkTimeout now)._server = s._server := by
  by_cases hfire : now ≥ s._readTimeout
  · have hc : s.checkTimeout now = s._expectNewPacket now := by
      unfold checkTimeout
      rw [if_pos hfire]
    rw [hc]
    exact ⟨fun _ => ⟨rfl, rfl, rfl⟩, fun hn => absurd hfire hn, rfl, rfl, rfl, rfl⟩
  · have hc : s.checkTimeout now = s := by
      unfold checkTimeout
      rw [if_neg hfire]
    rw [hc]
    exact ⟨fun hn => absurd hn hfire, fun _ => rfl, rfl, rfl, rfl, rfl⟩

/-- Witness for C7: a receiver two bytes into a header with deadline 1000, checked at time
1000 (the check fires) and at time 999 (it does not). -/
theorem checkTimeout_spec_witness :
    ((exampleReceiver [5, 0, 0, 0, 0, 0, 0, 0, 0, 0, 0, 0] 2 2).checkTimeout 1000)._expectedLen = 4 ∧
    ((exampleReceiver [5, 0, 0, 0, 0, 0, 0, 0, 0, 0, 0, 0] 2 2).checkTimeout 1000)._receivedLen = 0 ∧
    ((exampleReceiver [5, 0, 0, 0, 0, 0, 0, 0, 0, 0, 0, 0] 2 2).checkTimeout 1000)._readTimeout
      = (1000 + (exampleReceiver [5, 0, 0, 0, 0, 0, 0, 0, 0, 0, 0, 0] 2 2)._timeoutMS)
          % 4294967296 ∧
    (exampleReceiver [5, 0, 0, 0, 0, 0, 0, 0, 0, 0, 0, 0] 2 2).checkTimeout 999
      = exampleReceiver [5, 0, 0, 0, 0, 0, 0, 0, 0, 0, 0, 0] 2 2 :=
  ⟨((checkTimeout_spec (exampleReceiver [5, 0, 0, 0, 0, 0, 0, 0, 0, 0, 0, 0] 2 2) 1000).1
      (by decide)).1,
    ((checkTimeout_spec (exampleReceiver [5, 0, 0, 0, 0, 0, 0, 0, 0, 0, 0, 0] 2 2) 1000).1
      (by decide)).2.1,
    ((checkTimeout_spec (exampleReceiver [5, 0, 0, 0, 0, 0, 0, 0, 0, 0, 0, 0] 2 2) 1000).1
      (by decide)).2.2,
    (checkTimeout_spec (exampleReceiver [5, 0, 0, 0, 0, 0, 0, 0, 0, 0, 0, 0] 2 2) 999).2.1
      (by decide)⟩

/-- C8.  Construction failure is reported by `begin()`: the constructor only keeps what the
allocation of `maxDataLength + 4` bytes returned (it neither reads nor writes the block, and
the other members do not depend on it); `begin()` returns `ERROR_NO_MEMORY`, leaving the server
untouched, exactly when that allocation failed, and otherwise calls `begin` on the server and
returns `SUCCESS`. -/
theorem begin_reports_allocation {TServer : Type} (server : TServer)
    (maxDataLength timeoutMS : Nat) (malloc : Nat → Option (List Nat)) (now : Nat)
    (serverBegin : TServer → TServer) :
    new server maxDataLength timeoutMS malloc now =
      { _server := server, _maxDataLen := maxDataLength, _timeoutMS := timeoutMS,
        _data := malloc (maxDataLength + 4), _receivedLen := 0, _expectedLen := 4,
        _readTimeout := (now + timeoutMS) % 4294967296 } ∧
    (((new server maxDataLength timeoutMS malloc now).begin serverBegin).2
        = BeginResult.ERROR_NO_MEMORY ↔ malloc (maxDataLength + 4) = none) ∧
    (((new server maxDataLength timeoutMS malloc now).begin serverBegin).2
        = BeginResult.SUCCESS ↔ malloc (maxDataLength + 4) ≠ none) ∧
    (malloc (maxDataLength + 4) = none →
      (new server maxDataLength timeoutMS malloc now).begin serverBegin
        = (new server maxDataLength timeoutMS malloc now, BeginResult.ERROR_NO_MEMORY)) ∧
    (malloc (maxDataLength + 4) ≠ none →
      (new server maxDataLength timeoutMS malloc now).begin serverBegin
        = ({ new server maxDataLength timeoutMS malloc now with _server := serverBegin server },
           BeginResult.SUCCESS)) := by
  refine ⟨rfl, ?_⟩
  cases hm : malloc (maxDataLength + 4) with
  | none => simp [begin, new, _expectNewPacket, hm]
  | some buf => simp [begin, new, _expectNewPacket, hm]

/-- Witness for C8: one construction whose allocation fails and one whose allocation
succeeds. -/
theorem begin_reports_allocation_witness :
    ((new (0 : Nat) 510 1000 (fun _ => none) 0).begin (fun n => n + 1)).2
      = BeginResult.ERROR_NO_MEMORY ∧
    ((new (0 : Nat) 510 1000 (fun _ => none) 0).begin (fun n => n + 1)).1._server = 0 ∧
    ((new (0 : Nat) 8 1000 mallocZero 0).begin (fun n => n + 1)).2 = BeginResult.SUCCESS ∧
    ((new (0 : Nat) 8 1000 mallocZero 0).begin (fun n => n + 1)).1._server = 1 :=
  ⟨(begin_reports_allocation (0 : Nat) 510 1000 (fun _ => none) 0 (fun n => n + 1)).2.1.2 rfl,
    congrArg (fun p => p.1._server)
      ((begin_reports_allocation (0 : Nat) 510 1000 (fun _ => none) 0
        (fun n => n + 1)).2.2.2.1 rfl),
    (begin_reports_allocation (0 : Nat) 8 1000 mallocZero 0 (fun n => n + 1)).2.2.1.2
      (by decide),
    congrArg (fun p => p.1._server)
      ((begin_reports_allocation (0 : Nat) 8 1000 mallocZero 0
        (fun n => n + 1)).2.2.2.2 (by decide))⟩

/-- C9.  Big-endian length decoding: on a block that starts with the bytes `b0 b1 b2 b3`,
`getDataLength()` is `256 * b2 + b3`, a value below 65536 that does not depend on
`maxDataLength`; `getChannel()` is `b0` and `getCommand()` is `b1`; two byte pairs with the
same length are equal, and every value below 65536 is the length of some byte pair. -/
theorem getDataLength_big_endian {TServer : Type} (s : OpenPixelServerBase TServer)
    (b0 b1 b2 b3 : Nat) (rest : List Nat) (hs : s._data = some (b0 :: b1 :: b2 :: b3 :: rest))
    (h2 : b2 < 256) (h3 : b3 < 256) :
    s.getDataLength = some (256 * b2 + b3) ∧ 256 * b2 + b3 < 65536 ∧
    (∀ m : Nat, ({ s with _maxDataLen := m }).getDataLength = s.getDataLength) ∧
    s.getChannel = some b0 ∧ s.getCommand = some b1 ∧
    (∀ c2 c3 : Nat, c2 < 256 → c3 < 256 →
      ({ s with _data := some (b0 :: b1 :: c2 :: c3 :: rest) }).getDataLength = s.getDataLength →
      c2 = b2 ∧ c3 = b3) ∧
    (∀ n : Nat, n < 65536 → ∃ c2 c3 : Nat, c2 < 256 ∧ c3 < 256 ∧
      ({ s with _data := some (b0 :: b1 :: c2 :: c3 :: rest) }).getDataLength = some n) := by
  have hlen : ∀ (t : OpenPixelServerBase TServer) (c2 c3 : Nat),
      t._data = some (b0 :: b1 :: c2 :: c3 :: rest) → c2 < 256 → c3 < 256 →
      t.getDataLength = some (256 * c2 + c3) := by
    intro t c2 c3 ht hc2 hc3
    simp only [getDataLength, readData, ht, List.getElem?_cons_succ, List.getElem?_cons_zero,
      dataLen_eq c2 c3 hc2 hc3]
  refine ⟨hlen s b2 b3 hs h2 h3, by omega, fun m => rfl, ?_, ?_, ?_, ?_⟩
  · simp only [getChannel, readData, hs, List.getElem?_cons_zero]
  · simp only [getCommand, readData, hs, List.getElem?_cons_succ, List.getElem?_cons_zero]
  · intro c2 c3 hc2 hc3 heq
    rw [hlen _ c2 c3 rfl hc2 hc3, hlen s b2 b3 hs h2 h3] at heq
    have := Option.some.inj heq
    omega
  · intro n hn
    refine ⟨n / 256, n % 256, by omega, by omega, ?_⟩
    rw [hlen _ (n / 256) (n % 256) rfl (by omega) (by omega)]
    congr 1
    omega

/-- Witness for C9: the header `[1,0,2,88]` declares `256 * 2 + 88 = 600` bytes. -/
theorem getDataLength_big_endian_witness :
    (exampleReceiver [1, 0, 2, 88, 0, 0, 0, 0, 0, 0, 0, 0] 4 600).getDataLength = some 600 ∧
    (exampleReceiver [1, 0, 2, 88, 0, 0, 0, 0, 0, 0, 0, 0] 4 600).getChannel = some 1 ∧
    (exampleReceiver [1, 0, 2, 88, 0, 0, 0, 0, 0, 0, 0, 0] 4 600).getCommand = some 0 :=
  ⟨(getDataLength_big_endian (exampleReceiver [1, 0, 2, 88, 0, 0, 0, 0, 0, 0, 0, 0] 4 600)
      1 0 2 88 [0, 0, 0, 0, 0, 0, 0, 0] rfl (by decide) (by decide)).1,
    (getDataLength_big_endian (exampleReceiver [1, 0, 2, 88, 0, 0, 0, 0, 0, 0, 0, 0] 4 600)
      1 0 2 88 [0, 0, 0, 0, 0, 0, 0, 0] rfl (by decide) (by decide)).2.2.2.1,
    (getDataLength_big_endian (exampleReceiver [1, 0, 2, 88, 0, 0, 0, 0, 0, 0, 0, 0] 4 600)
      1 0 2 88 [0, 0, 0, 0, 0, 0, 0, 0] rfl (by decide) (by decide)).2.2.2.2.1⟩

/-- C10.  The copy constructor copies the configuration only: the new receiver has the
`maxDataLength`, `timeoutMS` and server of the source, holds the block its own allocation
returned, and awaits a header (`_receivedLen = 0`, `_expectedLen = 4`, deadline
`now + timeoutMS` in 32-bit arithmetic) whatever the source was doing; the source is as it
was. -/
theorem newCopy_copies_configuration {TServer : Type} (s : OpenPixelServerBase TServer)
    (malloc : Nat → Option (List Nat)) (now : Nat) :
    (s.newCopy malloc now).2._maxDataLen = s._maxDataLen ∧
    (s.newCopy malloc now).2._timeoutMS = s._timeoutMS ∧
    (s.newCopy malloc now).2._server = s._server ∧
    (s.newCopy malloc now).2._data = malloc (s._maxDataLen + 4) ∧
    (s.newCopy malloc now).2._receivedLen = 0 ∧
    (s.newCopy malloc now).2._expectedLen = 4 ∧
    (s.newCopy malloc now).2._readTimeout = (now + s._timeoutMS) % 4294967296 ∧
    (s.newCopy malloc now).1 = s :=
  ⟨rfl, rfl, rfl, rfl, rfl, rfl, rfl, rfl⟩

/-- C11 (defect in the code).  Store rule: a byte should be stored whenever `_receivedLen` is
below the capacity `maxDataLength + 4`.  With `maxDataLength = 8` and the 8 bytes
`[1,0,0,6,10,20,30,40]` received, `_receivedLen = 8` is below the capacity 12, yet the next
byte 50 is not written at index 8 and `_receivedLen` stays 8: the guard of the store is
`_receivedLen < _maxDataLen`. -/
theorem store_guard_ignores_header_room :
    (new () 8 1000 mallocZero 0).feed (stamp 0 [1, 0, 0, 6, 10, 20, 30, 40])
      = some (exampleReceiver [1, 0, 0, 6, 10, 20, 30, 40, 0, 0, 0, 0] 8 2,
          List.replicate 8 WORKING) ∧
    (exampleReceiver [1, 0, 0, 6, 10, 20, 30, 40, 0, 0, 0, 0] 8 2)._receivedLen
      < (exampleReceiver [1, 0, 0, 6, 10, 20, 30, 40, 0, 0, 0, 0] 8 2)._maxDataLen + 4 ∧
    (exampleReceiver [1, 0, 0, 6, 10, 20, 30, 40, 0, 0, 0, 0] 8 2).stepByte 50 0
      = some (exampleReceiver [1, 0, 0, 6, 10, 20, 30, 40, 0, 0, 0, 0] 8 1, WORKING) ∧
    (exampleReceiver [1, 0, 0, 6, 10, 20, 30, 40, 0, 0, 0, 0] 8 1).readData 8 = some 0 :=
  ⟨by decide, by decide, by decide, by decide⟩

/-- C12.  Reset points: the receiver awaits a header (`_expectedLen = 4`, `_receivedLen = 0`,
deadline `now + timeoutMS` in 32-bit arithmetic) after construction, after every step of the
loop body that returns `RECEIVED_PACKET` or `IGNORED_PACKET`, after every step that finds a
command other than 0 and 255 in a complete header, and after every timeout check that fires;
the reset `_expectNewPacket` leaves the buffer, `maxDataLength` and `timeoutMS` as they are. -/
theorem reset_points {TServer : Type} (s : OpenPixelServerBase TServer) (d now : Nat)
    (h : s.Allocated) :
    (∀ (server : TServer) (maxDataLength timeoutMS : Nat) (malloc : Nat → Option (List Nat)),
      (new server maxDataLength timeoutMS malloc now)._expectedLen = 4 ∧
      (new server maxDataLength timeoutMS malloc now)._receivedLen = 0 ∧
      (new server maxDataLength timeoutMS malloc now)._readTimeout
        = (now + timeoutMS) % 4294967296) ∧
    (∃ s1 r, s.stepByte d now = some (s1, r) ∧
      (r ≠ WORKING → s1._expectedLen = 4 ∧ s1._receivedLen = 0 ∧
        s1._readTimeout = (now + s._timeoutMS) % 4294967296)) ∧
    (∀ sa c, s.receiveByte d now = some sa → sa._receivedLen = 4 → sa.getCommand = some c →
      c ≠ 0 ∧ c ≠ 255 →
      ∃ s1, s.stepByte d now = some (s1, WORKING) ∧ s1._expectedLen = 4 ∧
        s1._receivedLen = 0 ∧ s1._readTimeout = (now + s._timeoutMS) % 4294967296) ∧
    (now ≥ s._readTimeout →
      (s.checkTimeout now)._expectedLen = 4 ∧ (s.checkTimeout now)._receivedLen = 0 ∧
      (s.checkTimeout now)._readTimeout = (now + s._timeoutMS) % 4294967296) ∧
    ((s._expectNewPacket now)._data = s._data ∧
      (s._expectNewPacket now)._maxDataLen = s._maxDataLen ∧
      (s._expectNewPacket now)._timeoutMS = s._timeoutMS) := by
  refine ⟨fun _ _ _ _ => ⟨rfl, rfl, rfl⟩, ?_, ?_, ?_, rfl, rfl, rfl⟩
  · obtain ⟨s1, r, hstep, -, -, -, -, hrt, -, -, hres⟩ := stepByte_frame s d now h
    exact ⟨s1, r, hstep, fun hne => ⟨(hres hne).2, (hres hne).1, hrt⟩⟩
  · intro sa c hra h4 hcmd hc
    obtain ⟨s1, r, hstep, -, -, -, -, hrt, -, -, -⟩ := stepByte_frame s d now h
    have hc2 : ¬ c = 0 ∧ ¬ c = 255 := hc
    have h40 : ¬ (4 : Nat) = 0 := by omega
    have hstep2 : s.stepByte d now = some (sa._expectNewPacket now, WORKING) := by
      simp only [stepByte, afterHeader, hra, checkHeader, h4, if_true, hcmd, ne_eq, hc2,
        and_self, not_false_eq_true, finishPacket, _expectNewPacket, h40, if_false]
    rw [hstep2] at hstep
    have e := Option.some.inj hstep
    have e1 : s1 = sa._expectNewPacket now := (congrArg Prod.fst e).symm
    refine ⟨sa._expectNewPacket now, hstep2, rfl, rfl, ?_⟩
    rw [← e1]
    exact hrt
  · intro hfire
    have hc : s.checkTimeout now = s._expectNewPacket now := by
      unfold checkTimeout
      rw [if_pos hfire]
    rw [hc]
    exact ⟨rfl, rfl, rfl⟩

/-- Witness for C12: the last byte of the packet `[1,0,0,1,9]` returns `RECEIVED_PACKET` and
leaves the receiver awaiting a header. -/
theorem reset_points_witness :
    (exampleReceiver [1, 0, 0, 1, 0, 0, 0, 0, 0, 0, 0, 0] 4 1).Allocated ∧
    ∃ s1 r, (exampleReceiver [1, 0, 0, 1, 0, 0, 0, 0, 0, 0, 0, 0] 4 1).stepByte 9 0
        = some (s1, r) ∧
      (r ≠ WORKING → s1._expectedLen = 4 ∧ s1._receivedLen = 0 ∧
        s1._readTimeout
          = (0 + (exampleReceiver [1, 0, 0, 1, 0, 0, 0, 0, 0, 0, 0, 0] 4 1)._timeoutMS)
              % 4294967296) :=
  ⟨by decide,
    (reset_points (exampleReceiver [1, 0, 0, 1, 0, 0, 0, 0, 0, 0, 0, 0] 4 1) 9 0
      (by decide)).2.1⟩

/-- C13 (counterexample).  A steady sender can trigger the timeout reset when the clock is
about to wrap.  With `timeoutMS = 1000`, the byte 1 is read at `2^32 - 900`, so the deadline
wraps to 100; `listen()` is called again 100 ms later, at `2^32 - 800`, with the next byte
ready: its timeout check fires, the first byte is dropped, and the second byte is stored as
the first byte of a header. -/
theorem steady_sender_times_out_at_wrap :
    ∃ s1 s2 : OpenPixelServerBase Unit,
      (new () 8 1000 mallocZero 4294966396).listen 4294966396 (some [(1, 4294966396)])
        = some (s1, WORKING, []) ∧
      s1._receivedLen = 1 ∧ s1.getChannel = some 1 ∧
      s1._readTimeout = (4294966396 + s1._timeoutMS) % 4294967296 ∧
      100 < s1._timeoutMS ∧
      s1.checkTimeout (4294966396 + 100) = s1._expectNewPacket (4294966396 + 100) ∧
      s1.listen (4294966396 + 100) (some [(0, 4294966396 + 100)]) = some (s2, WORKING, []) ∧
      s2._receivedLen = 1 ∧ s2.getChannel = some 0 :=
  ⟨_, _, rfl, rfl, rfl, rfl, by decide, rfl, rfl, rfl, rfl⟩

/-- C13 (amended).  Inactivity deadline: after one step of the loop body at time `now` the
deadline is `(now + timeoutMS) mod 2^32`, whatever the step did.  Hence a timeout check made
`e < timeoutMS` milliseconds after that byte leaves the receiver as it is, provided
`now + timeoutMS` and `now + e` lie on the same side of the clock wrap `2^32`. -/
theorem deadline_follows_last_byte {TServer : Type} (s : OpenPixelServerBase TServer)
    (d now : Nat) (h : s.Allocated) :
    ∃ s1 r, s.stepByte d now = some (s1, r) ∧
      s1._timeoutMS = s._timeoutMS ∧
      s1._readTimeout = (now + s._timeoutMS) % 4294967296 ∧
      (∀ e : Nat, now < 4294967296 → s._timeoutMS < 4294967296 → e < 4294967296 →
        (now + s._timeoutMS < 4294967296 ↔ now + e < 4294967296) →
        e < s._timeoutMS → s1.checkTimeout ((now + e) % 4294967296) = s1) := by
  obtain ⟨s1, r, hstep, -, -, htmo, -, hrt, -, -, -⟩ := stepByte_frame s d now h
  refine ⟨s1, r, hstep, htmo, hrt, ?_⟩
  intro e hnow hT he hw hlt
  have hquiet : ¬ (now + e) % 4294967296 ≥ s1._readTimeout := by
    rw [hrt]
    omega
  unfold checkTimeout
  rw [if_neg hquiet]

/-- Witness for C13 (amended): the third byte of a header read at time 5000; a check 999 ms
later leaves the receiver as it is. -/
theorem deadline_follows_last_byte_witness :
    (exampleReceiver [1, 0, 0, 0, 0, 0, 0, 0, 0, 0, 0, 0] 2 2).Allocated ∧
    ∃ s1 r, (exampleReceiver [1, 0, 0, 0, 0, 0, 0, 0, 0, 0, 0, 0] 2 2).stepByte 0 5000
        = some (s1, r) ∧
      s1._readTimeout = 6000 ∧ s1.checkTimeout 5999 = s1 :=
  ⟨by decide,
    (deadline_follows_last_byte (exampleReceiver [1, 0, 0, 0, 0, 0, 0, 0, 0, 0, 0, 0] 2 2)
      0 5000 (by decide)).elim
      (fun s1 hs1 => hs1.elim (fun r hr =>
        ⟨s1, r, hr.1, hr.2.2.1,
          hr.2.2.2 999 (by decide) (by decide) (by decide) (by decide) (by decide)⟩))⟩

/-- C14.  Bounded buffer use: from a receiver whose allocation gave a block of
`C = maxDataLength + 4` bytes, every sequence of per-byte steps and timeout checks goes
through without an access outside the block; in the state reached `_receivedLen ≤ C` (indeed
`≤ maxDataLength`), the next store, if any, is at an index below `C`, the header reads at
indices 0 to 3 succeed, and the next step and timeout check go through as well. -/
theorem bounded_buffer_use {TServer : Type} (server : TServer)
    (maxDataLength timeoutMS : Nat) (malloc : Nat → Option (List Nat)) (t0 : Nat)
    (buf0 : List Nat) (hm : malloc (maxDataLength + 4) = some buf0)
    (hl : buf0.length = maxDataLength + 4) (evs : List Event) :
    ∃ s buf, (new server maxDataLength timeoutMS malloc t0).run evs = some s ∧
      s._data = some buf ∧ buf.length = maxDataLength + 4 ∧
      s._maxDataLen = maxDataLength ∧
      s._receivedLen ≤ maxDataLength ∧ s._receivedLen ≤ maxDataLength + 4 ∧
      (∀ d, s._receivedLen < s._maxDataLen →
        s._receivedLen < maxDataLength + 4 ∧ ∃ s1, s.writeData s._receivedLen d = some s1) ∧
      (∀ i, i < 4 → ∃ b, s.readData i = some b) ∧
      (∀ d now, ∃ s1 r, s.stepByte d now = some (s1, r)) := by
  obtain ⟨ha, hmdl, hr, he⟩ := new_allocated server maxDataLength timeoutMS malloc t0 buf0 hm hl
  obtain ⟨s, hrun, a1, m1, -, r1, -⟩ :=
    run_invariant evs (new server maxDataLength timeoutMS malloc t0) ha
      (by rw [hr]; exact Nat.zero_le _) (by rw [he]; omega)
  obtain ⟨buf, hb, hlen⟩ := (allocated_iff s).1 a1
  have hmd : s._maxDataLen = maxDataLength := by rw [m1, hmdl]
  refine ⟨s, buf, hrun, hb, by omega, hmd, by omega, by omega, ?_, ?_, ?_⟩
  · intro d hlt
    refine ⟨by omega, ?_⟩
    have hin : s._receivedLen < buf.length := by omega
    exact ⟨{ s with _data := some (buf.set s._receivedLen d) },
      by simp only [writeData, hb, hin, if_true]⟩
  · intro i hi
    exact readData_of_allocated s a1 i hi
  · intro d now
    obtain ⟨s1, r, hstep, -⟩ := stepByte_frame s d now a1
    exact ⟨s1, r, hstep⟩

/-- Witness for C14: a receiver with `maxDataLength = 4`, fed 6 bytes with a timeout check in
between. -/
theorem bounded_buffer_use_witness :
    ∃ s buf, (new () 4 1000 mallocZero 0).run
        [Event.byte 1 0, Event.byte 0 0, Event.check 5000, Event.byte 0 5000,
          Event.byte 0 5000, Event.byte 0 5000, Event.byte 3 5000] = some s ∧
      s._data = some buf ∧ buf.length = 4 + 4 ∧
      s._maxDataLen = 4 ∧
      s._receivedLen ≤ 4 ∧ s._receivedLen ≤ 4 + 4 ∧
      (∀ d, s._receivedLen < s._maxDataLen →
        s._receivedLen < 4 + 4 ∧ ∃ s1, s.writeData s._receivedLen d = some s1) ∧
      (∀ i, i < 4 → ∃ b, s.readData i = some b) ∧
      (∀ d now, ∃ s1 r, s.stepByte d now = some (s1, r)) :=
  bounded_buffer_use () 4 1000 mallocZero 0 (List.replicate 8 0) rfl rfl _

/-- C15 (defect in the code).  Header phase: while `_receivedLen < 4` the expected count
should be `4 - _receivedLen`.  With `maxDataLength = 2` the third header byte of `[1,0,0]` is
not stored: the receiver is left with `_receivedLen = 2` and `_expectedLen = 1`. -/
theorem header_phase_out_of_step_at_two :
    (new () 2 1000 mallocZero 0).run [Event.byte 1 0, Event.byte 0 0, Event.byte 0 0]
      = some { _server := (), _maxDataLen := 2, _timeoutMS := 1000,
               _data := some [1, 0, 0, 0, 0, 0], _receivedLen := 2, _expectedLen := 1,
               _readTimeout := 1000 } ∧
    ∃ s : OpenPixelServerBase Unit,
      (new () 2 1000 mallocZero 0).run [Event.byte 1 0, Event.byte 0 0, Event.byte 0 0]
        = some s ∧
      s._receivedLen < 4 ∧ s._expectedLen ≠ 4 - s._receivedLen :=
  ⟨by decide, _, rfl, by decide, by decide⟩

/-- C18.  No counter underflow: from a receiver whose allocation succeeded, after every
sequence of per-byte steps and timeout checks `_expectedLen ≥ 1`, so the decrement in the
next step takes it to `_expectedLen - 1` without wrapping to 65535. -/
theorem expectedLen_never_zero {TServer : Type} (server : TServer)
    (maxDataLength timeoutMS : Nat) (malloc : Nat → Option (List Nat)) (t0 : Nat)
    (buf0 : List Nat) (hm : malloc (maxDataLength + 4) = some buf0)
    (hl : buf0.length = maxDataLength + 4) (evs : List Event) :
    ∃ s, (new server maxDataLength timeoutMS malloc t0).run evs = some s ∧
      1 ≤ s._expectedLen ∧
      (∀ d now, ∃ s1, s.receiveByte d now = some s1 ∧
        s1._expectedLen + 1 = s._expectedLen) := by
  obtain ⟨ha, hmdl, hr, he⟩ := new_allocated server maxDataLength timeoutMS malloc t0 buf0 hm hl
  obtain ⟨s, hrun, a1, m1, -, r1, e1⟩ :=
    run_invariant evs (new server maxDataLength timeoutMS malloc t0) ha
      (by rw [hr]; exact Nat.zero_le _) (by rw [he]; omega)
  obtain ⟨buf, hb, hlen⟩ := (allocated_iff s).1 a1
  refine ⟨s, hrun, e1, ?_⟩
  intro d now
  refine ⟨_, receiveByte_eq s d now buf hb (by omega), ?_⟩
  show (if s._expectedLen = 0 then 65535 else s._expectedLen - 1) + 1 = s._expectedLen
  rw [if_neg (by omega)]
  omega

/-- Witness for C18: a receiver with `maxDataLength = 4` after the header `[1,0,0,3]`, a
payload byte and a timeout check. -/
theorem expectedLen_never_zero_witness :
    ∃ s, (new () 4 1000 mallocZero 0).run
        [Event.byte 1 0, Event.byte 0 0, Event.byte 0 0, Event.byte 3 0, Event.byte 7 0,
          Event.check 5000] = some s ∧
      1 ≤ s._expectedLen ∧
      (∀ d now, ∃ s1, s.receiveByte d now = some s1 ∧
        s1._expectedLen + 1 = s._expectedLen) :=
  expectedLen_never_zero () 4 1000 mallocZero 0 (List.replicate 8 0) rfl rfl _

/-- C16.  Framing stays synchronised when `maxDataLength ≥ 5`: from a receiver awaiting a
header (any buffer contents), a header with channel `ch`, command 0 or 255 and declared
length `L ≤ 65535` followed by `L` payload bytes returns `WORKING` on each of the first
`3 + L` bytes and a packet result on the last one, `RECEIVED_PACKET` if `L ≤ maxDataLength`
and `IGNORED_PACKET` otherwise.  Afterwards the accessors return the header fed and the
receiver awaits a header again.  The header is parsed once: after the header and `k < L`
payload bytes the expected count is `L - k`, and `_receivedLen` is `min (4 + k)
maxDataLength`, which is 4 only for `k = 0`. -/
theorem framing_synchronised {TServer : Type} (s : OpenPixelServerBase TServer)
    (buf : List Nat) (ch c L t1 t2 t3 t4 : Nat) (pl : List (Nat × Nat))
    (hmdl : 5 ≤ s._maxDataLen) (h16 : s._maxDataLen < 65536)
    (hb : s._data = some buf) (hl : buf.length = s._maxDataLen + 4)
    (hrl : s._receivedLen = 0) (hel : s._expectedLen = 4)
    (hc : c = 0 ∨ c = 255) (hL : L < 65536) (hpl : pl.length = L) :
    (∃ s1, s.feed ((ch, t1) :: (c, t2) :: (L / 256, t3) :: (L % 256, t4) :: pl)
        = some (s1, List.replicate (3 + L) WORKING ++
            [if L ≤ s._maxDataLen then RECEIVED_PACKET else IGNORED_PACKET]) ∧
      s1.getChannel = some ch ∧ s1.getCommand = some c ∧ s1.getDataLength = some L ∧
      s1._receivedLen = 0 ∧ s1._expectedLen = 4) ∧
    (∀ k, k < L →
      ∃ sk, s.feed ((ch, t1) :: (c, t2) :: (L / 256, t3) :: (L % 256, t4) :: pl.take k)
          = some (sk, List.replicate (4 + k) WORKING) ∧
        sk._expectedLen = L - k ∧ sk._receivedLen = min (4 + k) s._maxDataLen) := by
  have hdl := dataLen_div_mod L hL
  obtain ⟨s4, buf4, res, hhdr, hd4, hlen4, hm4, g0, g1, g2, g3, hnz, hz⟩ :=
    feed_header s buf ch c (L / 256) (L % 256) t1 t2 t3 t4 hb hl (by omega) hrl hel hc
  rw [hdl] at hnz hz
  by_cases hL0 : L = 0
  · -- no payload: the fourth byte completes the packet
    obtain ⟨hres, hr4, he4⟩ := hz hL0
    have hnil : pl = [] := List.eq_nil_of_length_eq_zero (by omega)
    subst hnil
    obtain ⟨a0, a1, a2⟩ := accessors_of_header s4 buf4 ch c (L / 256) (L % 256) hd4 g0 g1 g2 g3
    rw [hdl] at a2
    refine ⟨⟨s4, ?_, a0, a1, a2, hr4, he4⟩, fun k hk => absurd hk (by omega)⟩
    rw [hhdr, hres, hL0, if_pos (Nat.zero_le _)]
    rfl
  · -- the payload phase
    obtain ⟨hres, hr4, he4⟩ := hnz hL0
    subst hres
    have p1 : buf4.length = s4._maxDataLen + 4 := by omega
    have p2 : 5 ≤ s4._maxDataLen := by omega
    have p3 : s4._maxDataLen < 65536 := by omega
    have p4 : 4 ≤ s4._receivedLen := by omega
    have p5 : s4._receivedLen ≤ s4._maxDataLen := by omega
    have p6 : 1 ≤ s4._expectedLen := by omega
    constructor
    · have p7 : pl.length ≤ s4._expectedLen := by omega
      obtain ⟨s1, buf1, rs, hfeed, hd1, -, -, hkeep, -, -, hdone⟩ :=
        feed_payload pl s4 buf4 (L / 256) (L % 256) hd4 p1 p2 p3 p4 p5 g2 g3 p6 p7
      obtain ⟨hrs, hr1, he1⟩ := hdone (by omega)
      have k0 : buf1[0]? = some ch := by rw [hkeep 0 (by omega)]; exact g0
      have k1 : buf1[1]? = some c := by rw [hkeep 1 (by omega)]; exact g1
      have k2 : buf1[2]? = some (L / 256) := by rw [hkeep 2 (by omega)]; exact g2
      have k3 : buf1[3]? = some (L % 256) := by rw [hkeep 3 (by omega)]; exact g3
      obtain ⟨a0, a1, a2⟩ :=
        accessors_of_header s1 buf1 ch c (L / 256) (L % 256) hd1 k0 k1 k2 k3
      rw [hdl] at a2
      refine ⟨s1, ?_, a0, a1, a2, hr1, he1⟩
      have happ := feed_append [(ch, t1), (c, t2), (L / 256, t3), (L % 256, t4)] pl
        s s4 s1 _ rs hhdr hfeed
      have hlist : [WORKING, WORKING, WORKING, WORKING] ++ rs
          = List.replicate (3 + L) WORKING ++
            [if L ≤ s._maxDataLen then RECEIVED_PACKET else IGNORED_PACKET] := by
        rw [hrs, hdl, hm4, hpl]
        have hres : (if L > s._maxDataLen then IGNORED_PACKET else RECEIVED_PACKET)
            = (if L ≤ s._maxDataLen then RECEIVED_PACKET else IGNORED_PACKET) := by
          by_cases hle : L ≤ s._maxDataLen
          · rw [if_neg (by omega), if_pos hle]
          · rw [if_pos (by omega), if_neg hle]
        rw [hres]
        have h4 : [WORKING, WORKING, WORKING, WORKING] = List.replicate 4 WORKING := rfl
        have hsum : 3 + L = 4 + (L - 1) := by omega
        rw [h4, hsum, List.replicate_add, List.append_assoc]
      rw [← hlist]
      exact happ
    · intro k hk
      have q1 : (pl.take k).length = k := by
        rw [List.length_take]
        omega
      have p7 : (pl.take k).length ≤ s4._expectedLen := by omega
      obtain ⟨sk, bufk, rs, hfeed, -, -, -, -, -, hwork, -⟩ :=
        feed_payload (pl.take k) s4 buf4 (L / 256) (L % 256) hd4 p1 p2 p3 p4 p5 g2 g3 p6 p7
      obtain ⟨hrs, hek, hrk⟩ := hwork (by omega)
      refine ⟨sk, ?_, by omega, by omega⟩
      have happ := feed_append [(ch, t1), (c, t2), (L / 256, t3), (L % 256, t4)] (pl.take k)
        s s4 sk _ rs hhdr hfeed
      have hlist : [WORKING, WORKING, WORKING, WORKING] ++ rs
          = List.replicate (4 + k) WORKING := by
        rw [hrs, q1, List.replicate_add]
        rfl
      rw [← hlist]
      exact happ

/-- Witness for C16: with `maxDataLength = 8`, a header declaring 10 bytes followed by 10
payload bytes ends in `IGNORED_PACKET` on the last byte. -/
theorem framing_synchronised_witness :
    (exampleReceiver [0, 0, 0, 0, 0, 0, 0, 0, 0, 0, 0, 0] 0 4).feed
        ((1, 0) :: (0, 0) :: (10 / 256, 0) :: (10 % 256, 0) ::
          stamp 0 [1, 2, 3, 4, 5, 6, 7, 8, 9, 10])
      = some (exampleReceiver [1, 0, 0, 10, 1, 2, 3, 4, 0, 0, 0, 0] 0 4,
          List.replicate 13 WORKING ++ [IGNORED_PACKET]) ∧
    ((∃ s1, (exampleReceiver [0, 0, 0, 0, 0, 0, 0, 0, 0, 0, 0, 0] 0 4).feed
          ((1, 0) :: (0, 0) :: (10 / 256, 0) :: (10 % 256, 0) ::
            stamp 0 [1, 2, 3, 4, 5, 6, 7, 8, 9, 10])
        = some (s1, List.replicate (3 + 10) WORKING ++
            [if 10 ≤ (exampleReceiver [0, 0, 0, 0, 0, 0, 0, 0, 0, 0, 0, 0] 0 4)._maxDataLen
              then RECEIVED_PACKET else IGNORED_PACKET]) ∧
        s1.getChannel = some 1 ∧ s1.getCommand = some 0 ∧ s1.getDataLength = some 10 ∧
        s1._receivedLen = 0 ∧ s1._expectedLen = 4) ∧
      (∀ k, k < 10 →
        ∃ sk, (exampleReceiver [0, 0, 0, 0, 0, 0, 0, 0, 0, 0, 0, 0] 0 4).feed
            ((1, 0) :: (0, 0) :: (10 / 256, 0) :: (10 % 256, 0) ::
              (stamp 0 [1, 2, 3, 4, 5, 6, 7, 8, 9, 10]).take k)
            = some (sk, List.replicate (4 + k) WORKING) ∧
          sk._expectedLen = 10 - k ∧
          sk._receivedLen
            = min (4 + k)
                (exampleReceiver [0, 0, 0, 0, 0, 0, 0, 0, 0, 0, 0, 0] 0 4)._maxDataLen)) :=
  ⟨by decide,
    framing_synchronised (exampleReceiver [0, 0, 0, 0, 0, 0, 0, 0, 0, 0, 0, 0] 0 4)
      [0, 0, 0, 0, 0, 0, 0, 0, 0, 0, 0, 0] 1 0 10 0 0 0 0
      (stamp 0 [1, 2, 3, 4, 5, 6, 7, 8, 9, 10])
      (by decide) (by decide) rfl (by decide) rfl rfl (Or.inl rfl) (by decide) (by decide)⟩

/-- C17.  Round trip within the stored region: from a receiver awaiting a header (any buffer
contents), a header with channel `ch`, command 0 or 255 and the length of the payload,
followed by a payload with `length + 4 ≤ maxDataLength`, returns `WORKING` on every byte
before the last and `RECEIVED_PACKET` on the last; afterwards `getChannel()`, `getCommand()`,
`getDataLength()` and the `getDataLength()` bytes at `getData()` are the channel, command,
length and payload fed. -/
theorem round_trip_stored_region {TServer : Type} (s : OpenPixelServerBase TServer)
    (buf : List Nat) (ch c t1 t2 t3 t4 : Nat) (pl : List (Nat × Nat))
    (h16 : s._maxDataLen < 65536)
    (hb : s._data = some buf) (hl : buf.length = s._maxDataLen + 4)
    (hrl : s._receivedLen = 0) (hel : s._expectedLen = 4)
    (hc : c = 0 ∨ c = 255) (hfit : pl.length + 4 ≤ s._maxDataLen) :
    ∃ s1, s.feed ((ch, t1) :: (c, t2) :: (pl.length / 256, t3) :: (pl.length % 256, t4) :: pl)
        = some (s1, List.replicate (3 + pl.length) WORKING ++ [RECEIVED_PACKET]) ∧
      s1.getChannel = some ch ∧ s1.getCommand = some c ∧
      s1.getDataLength = some pl.length ∧ s1.payload = some (pl.map Prod.fst) ∧
      s1._receivedLen = 0 ∧ s1._expectedLen = 4 := by
  have hL : pl.length < 65536 := by omega
  have hdl := dataLen_div_mod pl.length hL
  obtain ⟨s4, buf4, res, hhdr, hd4, hlen4, hm4, g0, g1, g2, g3, hnz, hz⟩ :=
    feed_header s buf ch c (pl.length / 256) (pl.length % 256) t1 t2 t3 t4 hb hl (by omega)
      hrl hel hc
  rw [hdl] at hnz hz
  by_cases hL0 : pl.length = 0
  · obtain ⟨hres, hr4, he4⟩ := hz hL0
    have hnil : pl = [] := List.eq_nil_of_length_eq_zero hL0
    subst hnil
    obtain ⟨a0, a1, a2⟩ :=
      accessors_of_header s4 buf4 ch c (([] : List (Nat × Nat)).length / 256)
        (([] : List (Nat × Nat)).length % 256) hd4 g0 g1 g2 g3
    rw [hdl] at a2
    refine ⟨s4, ?_, a0, a1, a2, ?_, hr4, he4⟩
    · rw [hhdr, hres]
      rfl
    · simp only [payload, a2, getData, hd4, List.length_nil, Nat.zero_le, if_true,
        List.take_zero, List.map_nil]
  · obtain ⟨hres, hr4, he4⟩ := hnz hL0
    subst hres
    have p1 : buf4.length = s4._maxDataLen + 4 := by omega
    have p2 : 5 ≤ s4._maxDataLen := by omega
    have p3 : s4._maxDataLen < 65536 := by omega
    have p4 : 4 ≤ s4._receivedLen := by omega
    have p5 : s4._receivedLen ≤ s4._maxDataLen := by omega
    have p6 : 1 ≤ s4._expectedLen := by omega
    have p7 : pl.length ≤ s4._expectedLen := by omega
    obtain ⟨s1, buf1, rs, hfeed, hd1, hlen1, -, hkeep, hstore, -, hdone⟩ :=
      feed_payload pl s4 buf4 (pl.length / 256) (pl.length % 256) hd4 p1 p2 p3 p4 p5 g2 g3
        p6 p7
    obtain ⟨hrs, hr1, he1⟩ := hdone (by omega)
    have hst := hstore (by omega)
    rw [hr4] at hst
    have k0 : buf1[0]? = some ch := by rw [hkeep 0 (by omega)]; exact g0
    have k1 : buf1[1]? = some c := by rw [hkeep 1 (by omega)]; exact g1
    have k2 : buf1[2]? = some (pl.length / 256) := by rw [hkeep 2 (by omega)]; exact g2
    have k3 : buf1[3]? = some (pl.length % 256) := by rw [hkeep 3 (by omega)]; exact g3
    obtain ⟨a0, a1, a2⟩ :=
      accessors_of_header s1 buf1 ch c (pl.length / 256) (pl.length % 256) hd1 k0 k1 k2 k3
    rw [hdl] at a2
    refine ⟨s1, ?_, a0, a1, a2, ?_, hr1, he1⟩
    · have happ := feed_append
        [(ch, t1), (c, t2), (pl.length / 256, t3), (pl.length % 256, t4)] pl
        s s4 s1 _ rs hhdr hfeed
      have hlist : [WORKING, WORKING, WORKING, WORKING] ++ rs
          = List.replicate (3 + pl.length) WORKING ++ [RECEIVED_PACKET] := by
        rw [hrs, hdl, if_neg (by omega)]
        have h4 : [WORKING, WORKING, WORKING, WORKING] = List.replicate 4 WORKING := rfl
        have hsum : 3 + pl.length = 4 + (pl.length - 1) := by omega
        rw [h4, hsum, List.replicate_add, List.append_assoc]
      rw [← hlist]
      exact happ
    · have hroom : pl.length ≤ (buf1.drop 4).length := by
        rw [List.length_drop]
        omega
      simp only [payload, a2, getData, hd1, hroom, if_true, hst]

/-- Witness for C17: the packet `[1,0,0,3,10,20,30]` with `maxDataLength = 8`. -/
theorem round_trip_stored_region_witness :
    ∃ s1, (exampleReceiver [0, 0, 0, 0, 0, 0, 0, 0, 0, 0, 0, 0] 0 4).feed
        ((1, 0) :: (0, 0) :: ((stamp 0 [10, 20, 30]).length / 256, 0) ::
          ((stamp 0 [10, 20, 30]).length % 256, 0) :: stamp 0 [10, 20, 30])
        = some (s1, List.replicate (3 + (stamp 0 [10, 20, 30]).length) WORKING ++
            [RECEIVED_PACKET]) ∧
      s1.getChannel = some 1 ∧ s1.getCommand = some 0 ∧
      s1.getDataLength = some (stamp 0 [10, 20, 30]).length ∧
      s1.payload = some ((stamp 0 [10, 20, 30]).map Prod.fst) ∧
      s1._receivedLen = 0 ∧ s1._expectedLen = 4 :=
  round_trip_stored_region (exampleReceiver [0, 0, 0, 0, 0, 0, 0, 0, 0, 0, 0, 0] 0 4)
    [0, 0, 0, 0, 0, 0, 0, 0, 0, 0, 0, 0] 1 0 0 0 0 0 (stamp 0 [10, 20, 30])
    (by decide) rfl (by decide) rfl rfl (Or.inl rfl) (by decide)

/-- C19.  Header re-parse stall at `maxDataLength = 4`: from a receiver with
`maxDataLength = 4` awaiting a header, after a header with command 0 or 255 that declares
`L = 256 * hi + lo ≥ 1` bytes, every further byte, however many, returns `WORKING` and leaves
`_receivedLen = 4` and `_expectedLen = L`; no packet result is ever returned. -/
theorem header_reparse_stall {TServer : Type} (s : OpenPixelServerBase TServer)
    (buf : List Nat) (ch c hi lo t1 t2 t3 t4 : Nat) (more : List (Nat × Nat))
    (hm : s._maxDataLen = 4)
    (hb : s._data = some buf) (hl : buf.length = s._maxDataLen + 4)
    (hrl : s._receivedLen = 0) (hel : s._expectedLen = 4)
    (hc : c = 0 ∨ c = 255) (hhi : hi < 256) (hlo : lo < 256) (hL : 1 ≤ 256 * hi + lo) :
    ∃ s1, s.feed ((ch, t1) :: (c, t2) :: (hi, t3) :: (lo, t4) :: more)
        = some (s1, List.replicate (4 + more.length) WORKING) ∧
      s1._receivedLen = 4 ∧ s1._expectedLen = 256 * hi + lo ∧
      (∀ r ∈ List.replicate (4 + more.length) WORKING,
        r ≠ RECEIVED_PACKET ∧ r ≠ IGNORED_PACKET) := by
  have hdl := dataLen_eq hi lo hhi hlo
  obtain ⟨s4, buf4, res, hhdr, hd4, hlen4, hm4, g0, g1, g2, g3, hnz, -⟩ :=
    feed_header s buf ch c hi lo t1 t2 t3 t4 hb hl (by omega) hrl hel hc
  obtain ⟨hres, hr4, he4⟩ := hnz (by omega)
  subst hres
  obtain ⟨s1, hfeed, -, -, hr1, he1⟩ :=
    feed_stall more s4 buf4 c hi lo hd4 (by omega) (by omega) hr4 he4 g1 g2 g3 hc (by omega)
  refine ⟨s1, ?_, hr1, by omega, ?_⟩
  · have happ := feed_append [(ch, t1), (c, t2), (hi, t3), (lo, t4)] more
      s s4 s1 _ _ hhdr hfeed
    have hlist : [WORKING, WORKING, WORKING, WORKING] ++ List.replicate more.length WORKING
        = List.replicate (4 + more.length) WORKING := by
      rw [List.replicate_add]
      rfl
    rw [← hlist]
    exact happ
  · intro r hr
    rw [List.eq_of_mem_replicate hr]
    exact ⟨by decide, by decide⟩

/-- Witness for C19: after the header `[1,0,0,2]` the two payload bytes and three more bytes
all return `WORKING`. -/
theorem header_reparse_stall_witness :
    (new () 4 1000 mallocZero 0).feed
        ((1, 0) :: (0, 0) :: (0, 0) :: (2, 0) :: stamp 0 [7, 8, 9, 9, 9])
      = some ({ _server := (), _maxDataLen := 4, _timeoutMS := 1000,
                _data := some [1, 0, 0, 2, 0, 0, 0, 0], _receivedLen := 4, _expectedLen := 2,
                _readTimeout := 1000 }, List.replicate 9 WORKING) ∧
    ∃ s1, (new () 4 1000 mallocZero 0).feed
        ((1, 0) :: (0, 0) :: (0, 0) :: (2, 0) :: stamp 0 [7, 8, 9, 9, 9])
        = some (s1, List.replicate (4 + (stamp 0 [7, 8, 9, 9, 9]).length) WORKING) ∧
      s1._receivedLen = 4 ∧ s1._expectedLen = 256 * 0 + 2 ∧
      (∀ r ∈ List.replicate (4 + (stamp 0 [7, 8, 9, 9, 9]).length) WORKING,
        r ≠ RECEIVED_PACKET ∧ r ≠ IGNORED_PACKET) :=
  ⟨by decide,
    header_reparse_stall (new () 4 1000 mallocZero 0) (List.replicate 8 0) 1 0 0 2 0 0 0 0
      (stamp 0 [7, 8, 9, 9, 9]) rfl rfl rfl rfl rfl (Or.inl rfl) (by decide) (by decide)
      (by decide)⟩

end Claims

end OpenPixel
